import Mathlib

/-!
# Policy evaluation engine of the FinOps enforcer

Shallow embedding of `pkg/policy/engine.go` (with the types of
`api/v1alpha1/enforcementpolicy_types.go`) and of the Go library routines the
engine calls, followed by the theorems about them.

Conventions of the embedding:

* a Go `string` is the list of its bytes (`GoString`), a byte being a natural
  number below 256;
* a Go function that may stop with a run-time panic (index out of range, nil
  dereference) returns an `Option`; `none` is the panic.  Loops that are not
  structurally recursive carry a fuel argument, and running out of fuel is
  `none` as well; the theorems show that the fuel supplied is always enough;
* Go maps are association lists read with `goLookup` (a missing key reads as
  the empty string, as `m[key]` does in Go);
* every reading of the wall clock is an explicit argument;
* the routines of the Go standard library whose behaviour the engine depends
  on, `path/filepath.Match` and `unicode/utf8.DecodeRuneInString`, are
  transcribed from the library (Go 1.16 and later, where `Match` checks the
  rest of the pattern before it answers false; Unix build); `time.Parse`,
  `time.LoadLocation` and the formatting routines are fields of `Library`.
-/

namespace FinOps

/-! ## Go strings -/

/-- A Go string: its bytes. -/
abbrev GoString := List Nat

/-- Bytes of a string literal (UTF-8 encoding of each character). -/
def utf8Bytes (c : Nat) : List Nat :=
  if c < 0x80 then [c]
  else if c < 0x800 then [0xC0 + c / 64, 0x80 + c % 64]
  else if c < 0x10000 then [0xE0 + c / 4096, 0x80 + (c / 64) % 64, 0x80 + c % 64]
  else [0xF0 + c / 262144, 0x80 + (c / 4096) % 64, 0x80 + (c / 64) % 64, 0x80 + c % 64]

/-- The Go string written as the literal `s`. -/
def str (s : String) : GoString :=
  s.toList.flatMap (fun c => utf8Bytes c.toNat)

/-- Go `s[i]`: panics when `i` is out of range. -/
def byteAt (s : GoString) (i : Nat) : Option Nat := s.get? i

/-- Go `s[n:]`: panics when `n` exceeds the length. -/
def sliceFrom (s : GoString) (n : Nat) : Option GoString :=
  if n ≤ s.length then some (s.drop n) else none

/-- Go `strings.Contains(name, string(Separator))` for the one-byte separator. -/
def containsByte (s : GoString) (b : Nat) : Bool := s.contains b

/-! ## `unicode/utf8.DecodeRuneInString` -/

def RuneError : Nat := 0xFFFD

def locb : Nat := 0x80
def hicb : Nat := 0xBF

def utf8_xx : Nat := 0xF1
def utf8_as : Nat := 0xF0
def utf8_s1 : Nat := 0x02
def utf8_s2 : Nat := 0x13
def utf8_s3 : Nat := 0x03
def utf8_s4 : Nat := 0x23
def utf8_s5 : Nat := 0x34
def utf8_s6 : Nat := 0x04
def utf8_s7 : Nat := 0x44

/-- The table `first` of package `unicode/utf8`: information about the first
byte of a UTF-8 sequence. -/
def first (b : Nat) : Nat :=
  if b < 0x80 then utf8_as
  else if b < 0xC2 then utf8_xx
  else if b < 0xE0 then utf8_s1
  else if b = 0xE0 then utf8_s2
  else if b < 0xED then utf8_s3
  else if b = 0xED then utf8_s4
  else if b < 0xF0 then utf8_s3
  else if b = 0xF0 then utf8_s5
  else if b < 0xF4 then utf8_s6
  else if b = 0xF4 then utf8_s7
  else utf8_xx

/-- The table `acceptRanges` of package `unicode/utf8`: bounds on the second
byte; entries beyond the fifth are zero. -/
def acceptRanges (i : Nat) : Nat × Nat :=
  if i = 0 then (locb, hicb)
  else if i = 1 then (0xA0, hicb)
  else if i = 2 then (locb, 0x9F)
  else if i = 3 then (0x90, hicb)
  else if i = 4 then (locb, 0x8F)
  else (0, 0)

/-- Go `utf8.DecodeRuneInString`: the first rune of `s` and its width in
bytes; `(RuneError, 1)` on an invalid encoding, `(RuneError, 0)` on the empty
string. -/
def DecodeRuneInString (s : GoString) : Option (Nat × Nat) :=
  let n := s.length
  if n < 1 then some (RuneError, 0) else do
  let s0 ← byteAt s 0
  let x := first s0
  if x ≥ utf8_as then
    if x = utf8_xx then some (RuneError, 1) else some (s0, 1)
  else
    let sz := x &&& 7
    let accept := acceptRanges (x >>> 4)
    if n < sz then some (RuneError, 1) else do
    let s1 ← byteAt s 1
    if s1 < accept.1 ∨ accept.2 < s1 then some (RuneError, 1)
    else if sz ≤ 2 then some (((s0 &&& 0x1F) <<< 6) ||| (s1 &&& 0x3F), 2)
    else do
    let s2 ← byteAt s 2
    if s2 < locb ∨ hicb < s2 then some (RuneError, 1)
    else if sz ≤ 3 then
      some (((s0 &&& 0x0F) <<< 12) ||| ((s1 &&& 0x3F) <<< 6) ||| (s2 &&& 0x3F), 3)
    else do
    let s3 ← byteAt s 3
    if s3 < locb ∨ hicb < s3 then some (RuneError, 1)
    else
      some (((s0 &&& 0x07) <<< 18) ||| ((s1 &&& 0x3F) <<< 12) ||| ((s2 &&& 0x3F) <<< 6)
        ||| (s3 &&& 0x3F), 4)

/-! ## `path/filepath.Match` (Unix build: separator `/`, escape `\`) -/

/-- The errors of `path/filepath`. -/
inductive GoError where
  | ErrBadPattern
deriving DecidableEq, Repr

/-- Go `filepath.Separator` on Unix. -/
def Separator : Nat := 47

/-- Number of bytes the scanning loop of `scanChunk` consumes: it stops at the
first `*` outside a bracket expression; a backslash protects the next byte. -/
def scanIndex : GoString → Bool → Nat
  | [], _ => 0
  | c :: rest, inrange =>
    if c = 92 then
      match rest with
      | [] => 1
      | _ :: rest2 => 2 + scanIndex rest2 inrange
    else if c = 91 then 1 + scanIndex rest true
    else if c = 93 then 1 + scanIndex rest false
    else if c = 42 then (if inrange then 1 + scanIndex rest inrange else 0)
    else 1 + scanIndex rest inrange

/-- The leading loop of `scanChunk`: drops the leading stars and reports
whether there was one. -/
def dropStars : GoString → Bool → GoString × Bool
  | [], star => ([], star)
  | c :: rest, star => if c = 42 then dropStars rest true else (c :: rest, star)

/-- Go `scanChunk`: the next segment of the pattern, a star-free string
possibly preceded by stars; returns `(star, chunk, rest)`. -/
def scanChunk (pattern : GoString) : Bool × GoString × GoString :=
  let (pattern, star) := dropStars pattern false
  let i := scanIndex pattern false
  (star, pattern.take i, pattern.drop i)

/-- Go `getEsc`: a possibly escaped character of a character class; returns
`(r, nchunk, err)`. -/
def getEsc (chunk : GoString) : Option (Nat × GoString × Option GoError) :=
  match chunk with
  | [] => some (0, [], some GoError.ErrBadPattern)
  | c :: rest =>
    if c = 45 ∨ c = 93 then some (0, [], some GoError.ErrBadPattern)
    else if c = 92 ∧ rest = [] then some (0, [], some GoError.ErrBadPattern)
    else do
      let chunk1 := if c = 92 then rest else c :: rest
      let (r, n) ← DecodeRuneInString chunk1
      let err1 := if r = RuneError ∧ n = 1 then some GoError.ErrBadPattern else none
      let nchunk ← sliceFrom chunk1 n
      let err2 := if nchunk.length = 0 then some GoError.ErrBadPattern else err1
      some (r, nchunk, err2)

/-- The loop `for { ... }` of `matchChunk` that parses the ranges of a
character class; returns `(chunk, match, err)`: the rest of the chunk after the
closing bracket and whether `r` lies in one of the ranges. -/
def classLoop : Nat → GoString → Nat → Bool → Nat → Option (GoString × Bool × Option GoError)
  | 0, _, _, _, _ => none
  | fuel + 1, chunk, r, mtch, nrange =>
    if chunk.head? = some 93 ∧ nrange > 0 then some (chunk.drop 1, mtch, none)
    else do
      let (lo, chunk1, err) ← getEsc chunk
      if err ≠ none then some ([], false, err) else do
      let c0 ← byteAt chunk1 0
      if c0 = 45 then do
        let rest ← sliceFrom chunk1 1
        let (hi, chunk2, err2) ← getEsc rest
        if err2 ≠ none then some ([], false, err2)
        else classLoop fuel chunk2 r (mtch || (decide (lo ≤ r) && decide (r ≤ hi))) (nrange + 1)
      else classLoop fuel chunk1 r (mtch || (decide (lo ≤ r) && decide (r ≤ lo))) (nrange + 1)

/-- The loop of Go `matchChunk`, with the flag `failed` as loop state; returns
`(rest, ok, err)`. -/
def matchChunkLoop : Nat → GoString → GoString → Bool → Option (GoString × Bool × Option GoError)
  | 0, _, _, _ => none
  | fuel + 1, chunk, s, failed =>
    match chunk with
    | [] => if failed then some ([], false, none) else some (s, true, none)
    | c :: ctail =>
      let failed := failed || decide (s.length = 0)
      if c = 91 then do
        -- character class
        let (r, s) ← (if !failed then do
            let (r, n) ← DecodeRuneInString s
            let s1 ← sliceFrom s n
            pure (r, s1)
          else pure (0, s))
        -- possibly negated
        let negated := decide (ctail.head? = some 94)
        let chunk1 := if negated then ctail.drop 1 else ctail
        -- parse all ranges
        let (chunk2, mtch, err) ← classLoop (chunk1.length + 1) chunk1 r false 0
        if err ≠ none then some ([], false, err)
        else matchChunkLoop fuel chunk2 s (failed || (mtch == negated))
      else if c = 63 then do
        if !failed then do
          let s0 ← byteAt s 0
          let (_, n) ← DecodeRuneInString s
          let s1 ← sliceFrom s n
          matchChunkLoop fuel ctail s1 (failed || decide (s0 = Separator))
        else matchChunkLoop fuel ctail s failed
      else if c = 92 then
        match ctail with
        | [] => some ([], false, some GoError.ErrBadPattern)
        | c1 :: ctail1 =>
          if !failed then do
            let s0 ← byteAt s 0
            let s1 ← sliceFrom s 1
            matchChunkLoop fuel ctail1 s1 (failed || decide (c1 ≠ s0))
          else matchChunkLoop fuel ctail1 s failed
      else
        if !failed then do
          let s0 ← byteAt s 0
          let s1 ← sliceFrom s 1
          matchChunkLoop fuel ctail s1 (failed || decide (c ≠ s0))
        else matchChunkLoop fuel ctail s failed

/-- Go `matchChunk`: does `chunk` match the beginning of `s`?  If so the rest
of `s` after the match is returned. -/
def matchChunk (chunk s : GoString) : Option (GoString × Bool × Option GoError) :=
  matchChunkLoop (chunk.length + 1) chunk s false

/-- What the loop over `i` in Go `Match` (the positions a star may skip to) ends
with. -/
inductive StarOutcome where
  /-- The chunk matched at a later position: `continue Pattern` with this name. -/
  | found (name : GoString)
  /-- The chunk is malformed: `return false, err`. -/
  | bad (err : GoError)
  /-- The loop ended without a match. -/
  | exhausted
deriving DecidableEq, Repr

/-- The loop `for i := 0; i < len(name) && name[i] != Separator; i++` of Go
`Match`: the argument is `name[i:]`. -/
def starLoop (chunk : GoString) (patternEmpty : Bool) : GoString → Option StarOutcome
  | [] => some StarOutcome.exhausted
  | c :: rest =>
    if c = Separator then some StarOutcome.exhausted
    else do
      let (t, ok, err) ← matchChunk chunk rest
      if ok then
        -- if we are the last chunk, make sure we exhausted the name
        if patternEmpty ∧ t.length > 0 then starLoop chunk patternEmpty rest
        else some (StarOutcome.found t)
      else match err with
        | some e => some (StarOutcome.bad e)
        | none => starLoop chunk patternEmpty rest

/-- The final loop of Go `Match`: before returning false with no error, check
that the remainder of the pattern is syntactically valid. -/
def validateRest : Nat → GoString → Option (Bool × Option GoError)
  | 0, _ => none
  | fuel + 1, pattern =>
    if pattern.length > 0 then
      let (_, chunk, pattern1) := scanChunk pattern
      do
        let (_, _, err) ← matchChunk chunk []
        if err ≠ none then some (false, err) else validateRest fuel pattern1
    else some (false, none)

/-- The loop `Pattern:` of Go `Match`. -/
def MatchLoop : Nat → GoString → GoString → Option (Bool × Option GoError)
  | 0, _, _ => none
  | fuel + 1, pattern, name =>
    if pattern.length > 0 then
      let (star, chunk, pattern1) := scanChunk pattern
      if star ∧ chunk = [] then
        -- Trailing * matches rest of string unless it has a /.
        some (!containsByte name Separator, none)
      else do
        -- Look for match at current position.
        let (t, ok, err) ← matchChunk chunk name
        if ok ∧ (t.length = 0 ∨ pattern1.length > 0) then MatchLoop fuel pattern1 t
        else if err ≠ none then some (false, err)
        else do
          let skipped ← (if star then starLoop chunk (decide (pattern1.length = 0)) name
                         else some StarOutcome.exhausted)
          match skipped with
          | StarOutcome.found t1 => MatchLoop fuel pattern1 t1
          | StarOutcome.bad e => some (false, some e)
          | StarOutcome.exhausted => validateRest (pattern1.length + 1) pattern1
    else some (decide (name.length = 0), none)

/-- Go `filepath.Match(pattern, name)`: returns `(matched, err)`. -/
def Match (pattern name : GoString) : Option (Bool × Option GoError) :=
  MatchLoop (pattern.length + 1) pattern name

/-! ## The engine and its types -/

/-! ### Library values the engine uses -/

/-- A Go `time.Duration` (also inside `metav1.Duration`): a signed 64-bit
count of nanoseconds. -/
abbrev Duration := Int

/-- An instant of the wall clock: nanoseconds since the Unix epoch. -/
abbrev Time := Int

def minDuration : Duration := -(2 ^ 63)
def maxDuration : Duration := 2 ^ 63 - 1

/-- Go `t.Sub(u)` on wall-clock instants: the difference, saturated to the
range of `Duration`. -/
def timeSub (t u : Time) : Duration :=
  if t - u < minDuration then minDuration
  else if maxDuration < t - u then maxDuration
  else t - u

/-- Go `time.Since(t)` for a `t` without monotonic reading (the result of
`time.Parse`): `Now().Sub(t)`, `now` being the instant the clock shows. -/
def timeSince (now t : Time) : Duration := timeSub now t

/-- A Go `*time.Location`: the offset from UTC, in seconds, in force at a given
Unix time (in seconds). -/
abbrev Location := Int → Int

/-- Seconds since the Unix epoch of an instant, shifted to the local clock of
the location. -/
def localSeconds (loc : Location) (t : Time) : Int :=
  let unix := Int.fdiv t 1000000000
  unix + loc unix

/-- Go `t.In(loc).Weekday()`: 0 is Sunday (the Unix epoch fell on a Thursday). -/
def weekdayIn (loc : Location) (t : Time) : Nat :=
  (Int.fmod (Int.fdiv (localSeconds loc t) 86400 + 4) 7).toNat

/-- Go `t.In(loc).Hour()`. -/
def hourIn (loc : Location) (t : Time) : Int :=
  Int.fdiv (Int.fmod (localSeconds loc t) 86400) 3600

/-- The table `longDayNames` of package `time`. -/
def longDayNames : List GoString :=
  [str "Sunday", str "Monday", str "Tuesday", str "Wednesday", str "Thursday",
   str "Friday", str "Saturday"]

/-- Go `Weekday.String()` for the seven days. -/
def weekdayString (d : Nat) : GoString := longDayNames.getD d []

/-- A Go `float64` as far as comparison goes: not-a-number, the two infinities
and the finite values (the two zeros compare equal). -/
inductive Float64 where
  | nan
  | negInf
  | fin (q : ℚ)
  | posInf
deriving DecidableEq

/-- Go `a < b` on `float64` (false as soon as one side is not a number). -/
def Float64.lt : Float64 → Float64 → Bool
  | Float64.nan, _ => false
  | _, Float64.nan => false
  | Float64.negInf, Float64.negInf => false
  | Float64.negInf, _ => true
  | Float64.fin _, Float64.negInf => false
  | Float64.fin a, Float64.fin b => decide (a < b)
  | Float64.fin _, Float64.posInf => true
  | Float64.posInf, _ => false

/-- Go `a >= b` on `float64` (false as soon as one side is not a number). -/
def Float64.ge : Float64 → Float64 → Bool
  | Float64.nan, _ => false
  | _, Float64.nan => false
  | _, Float64.negInf => true
  | Float64.negInf, _ => false
  | Float64.posInf, _ => true
  | Float64.fin _, Float64.posInf => false
  | Float64.fin a, Float64.fin b => decide (b ≤ a)

/-- Go `a <= b` on `float64`. -/
def Float64.le (a b : Float64) : Bool := Float64.ge b a

/-- What the engine takes from outside this repository and the Go library:
the parser of RFC 3339 timestamps, the time zone database, and the two
formatting routines behind the text of a match reason. -/
structure Library where
  /-- Go `time.Parse(time.RFC3339, s)`; `none` when it returns an error. -/
  ParseRFC3339 : GoString → Option Time
  /-- Go `time.LoadLocation(name)`; `none` when it returns an error. -/
  LoadLocation : GoString → Option Location
  /-- Go `Duration.String()`. -/
  DurationString : Duration → GoString
  /-- The value of `metav1.FormatResourceQuantity(metav1.ResourceList{}, 2)`. -/
  FormatResourceQuantity : GoString

/-! ### `api/v1alpha1/enforcementpolicy_types.go` -/

/-- A Go `map[string]string`. -/
abbrev GoMap := List (GoString × GoString)

/-- Go `m[key]` on a `map[string]string`: the zero value `""` when the key is
missing (also on a nil map). -/
def goLookup (m : GoMap) (key : GoString) : GoString := (m.lookup key).getD []

structure NamespaceFilter where
  Include : List GoString
  Exclude : List GoString

structure LabelFilter where
  Match : GoMap
  Exclude : GoMap

structure ScopeSpec where
  Namespaces : NamespaceFilter
  Labels : Option LabelFilter

structure ConditionsSpec where
  IdleWindow : Duration
  MinHourlyCost : Float64

structure ActionsSpec where
  Type_ : GoString
  Notify : GoString
  ReactivationAllowed : Bool

structure EnforcementSpec where
  DryRun : Bool
  MaxActionsPerRun : Int
  CooldownWindow : Duration

structure ActiveHoursSpec where
  Days : List GoString
  Hours : List Int

structure ScheduleSpec where
  Timezone : GoString
  ActiveHours : List ActiveHoursSpec

structure EnforcementPolicySpec where
  Scope : ScopeSpec
  Conditions : ConditionsSpec
  Actions : ActionsSpec
  Enforcement : EnforcementSpec
  Schedule : Option ScheduleSpec

structure EnforcementPolicy where
  Name : GoString
  Spec : EnforcementPolicySpec

/-- The fields of an `appsv1.Deployment` the engine reads; `Replicas` is the
pointer `Spec.Replicas`, `none` when nil. -/
structure Deployment where
  Name : GoString
  Namespace : GoString
  Labels : GoMap
  Annotations : GoMap
  Replicas : Option Int

/-- The field of `cost.CostData` the engine reads. -/
structure CostData where
  HourlyCost : Float64

/-- Modelled from the spec: `cost.EstimateMonthlyCost` is defined in
`pkg/cost/client.go`, which is not among the sources (only its test is); the
spec gives `monthlySavings(hourlyCost) = hourlyCost * 730`, no rounding. -/
def EstimateMonthlyCost (hourlyCost : Float64) : Float64 :=
  match hourlyCost with
  | Float64.fin q => Float64.fin (q * 730)
  | other => other

/-! ### `pkg/policy/engine.go` -/

structure EnforcementAction where
  Type_ : GoString
  Deployment : Deployment
  OriginalReplicas : Int
  Reason : GoString
  EstimatedMonthlySavings : Float64
  Policy : GoString
  DryRun : Bool

structure EvaluationResult where
  Policy : EnforcementPolicy
  Deployment : Deployment
  CostData : CostData
  Matched : Bool
  Reason : GoString
  Action : Option EnforcementAction

/-- The instants the wall clock shows at the three places where an evaluation
reads it: `time.Since` in `isIdleLongEnough`, `time.Now` in `isWithinSchedule`
and `time.Since` in `isCooldownExpired`. -/
structure Clock where
  idle : Time
  schedule : Time
  cooldown : Time

/-- Go `matchPattern`: wildcard pattern matching; the error of `filepath.Match`
is discarded. -/
def matchPattern (pattern value : GoString) : Option Bool := do
  let (matched, _) ← Match pattern value
  pure matched

/-- Go `isPaused`. -/
def isPaused (deployment : Deployment) : Bool :=
  goLookup deployment.Annotations (str "finops.io/paused") == str "true"

/-- Go `isExcluded`. -/
def isExcluded (deployment : Deployment) : Bool :=
  goLookup deployment.Annotations (str "finops.io/exclude") == str "true"

/-- The loop `for _, pattern := range patterns { if matchPattern(pattern,
namespace) { return ... } }` of `matchesNamespaceScope`: does some pattern
match?  Patterns after the first match are not looked at. -/
def anyPatternMatches : List GoString → GoString → Option Bool
  | [], _ => some false
  | pattern :: rest, namespace_ => do
    if (← matchPattern pattern namespace_) then pure true
    else anyPatternMatches rest namespace_

/-- Go `Engine.matchesNamespaceScope`. -/
def matchesNamespaceScope (namespace_ : GoString) (filter : NamespaceFilter) : Option Bool := do
  -- Check exclusions first
  if (← anyPatternMatches filter.Exclude namespace_) then pure false
  -- Check inclusions
  else if (← anyPatternMatches filter.Include namespace_) then pure true
  else pure false

/-- Go `Engine.matchesLabelFilter`. -/
def matchesLabelFilter (labels : GoMap) (filter : LabelFilter) : Bool :=
  -- Check exclusions first
  if filter.Exclude.any (fun kv => goLookup labels kv.1 == kv.2) then false
  -- Check required matches
  else if filter.Match.any (fun kv => goLookup labels kv.1 != kv.2) then false
  else true

/-- Go `Engine.isIdleLongEnough`; `now` is the instant `time.Since` reads. -/
def isIdleLongEnough (lib : Library) (now : Time) (deployment : Deployment)
    (idleWindow : Duration) : Bool :=
  let lastActivityStr := goLookup deployment.Annotations (str "finops.io/last-activity")
  if lastActivityStr = [] then true
  else match lib.ParseRFC3339 lastActivityStr with
    | none => true
    | some lastActivity => decide (timeSince now lastActivity ≥ idleWindow)

/-- Go `Engine.isWithinSchedule`; `now` is the instant `time.Now` reads. -/
def isWithinSchedule (lib : Library) (now : Time) (schedule : ScheduleSpec) : Bool :=
  match lib.LoadLocation schedule.Timezone with
  | none => true
  | some loc =>
    let currentDay := (weekdayString (weekdayIn loc now)).take 3
    let currentHour := hourIn loc now
    schedule.ActiveHours.any (fun activeHours =>
      activeHours.Days.contains currentDay &&
        (match activeHours.Hours with
         | [start, end_] => decide (currentHour ≥ start) && decide (currentHour ≤ end_)
         | _ => false))

/-- Go `Engine.isCooldownExpired`; `now` is the instant `time.Since` reads. -/
def isCooldownExpired (lib : Library) (now : Time) (deployment : Deployment)
    (cooldownWindow : Duration) : Bool :=
  let pausedAtStr := goLookup deployment.Annotations (str "finops.io/paused-at")
  if pausedAtStr = [] then true
  else match lib.ParseRFC3339 pausedAtStr with
    | none => true
    | some pausedAt => decide (timeSince now pausedAt ≥ cooldownWindow)

/-- Go `formatFloat`: its argument is not used. -/
def formatFloat (lib : Library) (_f : Float64) : GoString := lib.FormatResourceQuantity

/-- Go `buildMatchReason`. -/
def buildMatchReason (lib : Library) (policy : EnforcementPolicy) (costData : CostData) :
    GoString :=
  str "Idle for " ++ lib.DurationString policy.Spec.Conditions.IdleWindow ++
    str ", zero traffic detected, hourly cost: $" ++ formatFloat lib costData.HourlyCost

/-- Go `Engine.Evaluate`: returns `(result, err)`. -/
def Evaluate (lib : Library) (clock : Clock) (policy : EnforcementPolicy)
    (deployment : Deployment) (costData : CostData) :
    Option (EvaluationResult × Option GoError) :=
  let result : EvaluationResult :=
    { Policy := policy, Deployment := deployment, CostData := costData, Matched := false,
      Reason := [], Action := none }
  -- Check if already paused
  if isPaused deployment then
    some ({ result with Reason := str "already paused" }, none)
  -- Check for exclusion annotation
  else if isExcluded deployment then
    some ({ result with Reason := str "excluded by annotation" }, none)
  else do
  -- Check namespace scope
  let inScope ← matchesNamespaceScope deployment.Namespace policy.Spec.Scope.Namespaces
  if !inScope then
    some ({ result with Reason := str "namespace not in scope" }, none)
  -- Check label filters
  else if (match policy.Spec.Scope.Labels with
      | some labels => !matchesLabelFilter deployment.Labels labels
      | none => false) then
    some ({ result with Reason := str "labels do not match" }, none)
  -- Check cost threshold
  else if Float64.lt costData.HourlyCost policy.Spec.Conditions.MinHourlyCost then
    some ({ result with Reason := str "cost below threshold" }, none)
  -- Check idle window
  else if !isIdleLongEnough lib clock.idle deployment policy.Spec.Conditions.IdleWindow then
    some ({ result with Reason := str "not idle long enough" }, none)
  -- Check schedule (if defined)
  else if (match policy.Spec.Schedule with
      | some schedule => !isWithinSchedule lib clock.schedule schedule
      | none => false) then
    some ({ result with Reason := str "outside scheduled hours" }, none)
  -- Check cooldown
  else if policy.Spec.Enforcement.CooldownWindow > 0 ∧
      !isCooldownExpired lib clock.cooldown deployment policy.Spec.Enforcement.CooldownWindow then
    some ({ result with Reason := str "cooldown not expired" }, none)
  else do
  -- All conditions matched - create action
  let reason := buildMatchReason lib policy costData
  let originalReplicas ← deployment.Replicas
  some ({ result with
          Matched := true
          Reason := reason
          Action := some
            { Type_ := policy.Spec.Actions.Type_
              Deployment := deployment
              OriginalReplicas := originalReplicas
              Reason := reason
              EstimatedMonthlySavings := EstimateMonthlyCost costData.HourlyCost
              Policy := policy.Name
              DryRun := policy.Spec.Enforcement.DryRun } }, none)

/-! ### The gates of `Evaluate` as the specification lists them -/

/-- The eight gates of an evaluation in the order of the specification: for each
gate whether it fails on the input, and the reason recorded when it does.
`inScope` is the result of the namespace check.  Gates 4, 7 and 8 can fail
only when a label filter, a schedule, a positive cooldown window is
configured. -/
def gateTable (lib : Library) (clock : Clock) (policy : EnforcementPolicy)
    (deployment : Deployment) (costData : CostData) (inScope : Bool) :
    List (Bool × GoString) :=
  [ (isPaused deployment, str "already paused"),
    (isExcluded deployment, str "excluded by annotation"),
    (!inScope, str "namespace not in scope"),
    ((match policy.Spec.Scope.Labels with
      | some labels => !matchesLabelFilter deployment.Labels labels
      | none => false), str "labels do not match"),
    (Float64.lt costData.HourlyCost policy.Spec.Conditions.MinHourlyCost,
      str "cost below threshold"),
    (!isIdleLongEnough lib clock.idle deployment policy.Spec.Conditions.IdleWindow,
      str "not idle long enough"),
    ((match policy.Spec.Schedule with
      | some schedule => !isWithinSchedule lib clock.schedule schedule
      | none => false), str "outside scheduled hours"),
    (decide (policy.Spec.Enforcement.CooldownWindow > 0) &&
      !isCooldownExpired lib clock.cooldown deployment policy.Spec.Enforcement.CooldownWindow,
      str "cooldown not expired") ]

/-- The reason of the first failing gate of a table, if a gate fails. -/
def firstFailure (gates : List (Bool × GoString)) : Option GoString :=
  (gates.find? (fun g => g.1)).map (fun g => g.2)

/-- The bytes with a special meaning in a pattern of `filepath.Match` on Unix:
`*`, `?`, `[` and the escape `\`. -/
def isMetaByte (b : Nat) : Bool := b == 42 || b == 63 || b == 91 || b == 92

/-- A pattern without glob metacharacter. -/
def isLiteral (pattern : GoString) : Bool := pattern.all (fun b => !isMetaByte b)

/-- The value `v` starts with `p`. -/
def startsWith (v p : GoString) : Bool := v.take p.length == p

/-- The result `Evaluate` returns when a gate fails: the inputs, unmatched, with
the reason of the gate and no action. -/
def unmatchedResult (policy : EnforcementPolicy) (deployment : Deployment)
    (costData : CostData) (reason : GoString) : EvaluationResult :=
  { Policy := policy, Deployment := deployment, CostData := costData, Matched := false,
    Reason := reason, Action := none }

/-- The result `Evaluate` builds in its last block, once all conditions matched;
`replicas` is the value of `*deployment.Spec.Replicas`. -/
def matchedResult (lib : Library) (policy : EnforcementPolicy) (deployment : Deployment)
    (costData : CostData) (replicas : Int) : EvaluationResult :=
  { Policy := policy, Deployment := deployment, CostData := costData, Matched := true,
    Reason := buildMatchReason lib policy costData,
    Action := some
      { Type_ := policy.Spec.Actions.Type_
        Deployment := deployment
        OriginalReplicas := replicas
        Reason := buildMatchReason lib policy costData
        EstimatedMonthlySavings := EstimateMonthlyCost costData.HourlyCost
        Policy := policy.Name
        DryRun := policy.Spec.Enforcement.DryRun } }

/-- Whether a `float64` is not-a-number. -/
def Float64.isNaN : Float64 → Bool
  | Float64.nan => true
  | _ => false

/-! ### Sample inputs -/

/-- A library whose parser and time zone database know nothing. -/
def sampleLibrary : Library :=
  { ParseRFC3339 := fun _ => none
    LoadLocation := fun _ => none
    DurationString := fun _ => str "24h0m0s"
    FormatResourceQuantity := [] }

def sampleClock : Clock := { idle := 0, schedule := 0, cooldown := 0 }

/-- A policy for the namespaces `dev-*` with a cost threshold of 5 per hour. -/
def samplePolicy : EnforcementPolicy :=
  { Name := str "idle-dev"
    Spec :=
      { Scope := { Namespaces := { Include := [str "dev-*"], Exclude := [] }, Labels := none }
        Conditions := { IdleWindow := 86400000000000, MinHourlyCost := Float64.fin 5 }
        Actions := { Type_ := str "scaleToZero", Notify := str "none",
                     ReactivationAllowed := true }
        Enforcement := { DryRun := false, MaxActionsPerRun := 0, CooldownWindow := 0 }
        Schedule := none } }

def sampleDeployment : Deployment :=
  { Name := str "web", Namespace := str "dev-test", Labels := [], Annotations := [],
    Replicas := some 3 }

def sampleCost : CostData := { HourlyCost := Float64.fin 3 }

/-- A cost sample above the threshold of `samplePolicy`. -/
def sampleCostHigh : CostData := { HourlyCost := Float64.fin 7 }

/-- The deployment `sampleDeployment` with `Spec.Replicas` left nil. -/
def sampleDeploymentNoReplicas : Deployment :=
  { Name := str "web", Namespace := str "dev-test", Labels := [], Annotations := [],
    Replicas := none }

/-- A library that parses two timestamps (to nanoseconds since the Unix epoch)
and knows the zone `UTC`. -/
def scenarioLibrary : Library :=
  { ParseRFC3339 := fun s =>
      if s = str "2026-01-01T00:00:00Z" then some 1767225600000000000
      else if s = str "2100-01-01T00:00:00Z" then some 4102444800000000000
      else none
    LoadLocation := fun name => if name = str "UTC" then some (fun _ => 0) else none
    DurationString := fun _ => str "24h0m0s"
    FormatResourceQuantity := [] }

/-- The instant 2026-01-03T00:00:00Z (a Saturday), read at all three places. -/
def scenarioClock : Clock :=
  { idle := 1767398400000000000, schedule := 1767398400000000000,
    cooldown := 1767398400000000000 }

/-- The policy of the full-match scenario: threshold 1 per hour, idle window
24 hours, no schedule, no cooldown. -/
def scenarioPolicy : EnforcementPolicy :=
  { Name := str "idle-dev"
    Spec :=
      { Scope := { Namespaces := { Include := [str "dev-*"], Exclude := [] }, Labels := none }
        Conditions := { IdleWindow := 86400000000000, MinHourlyCost := Float64.fin 1 }
        Actions := { Type_ := str "scaleToZero", Notify := str "none",
                     ReactivationAllowed := true }
        Enforcement := { DryRun := true, MaxActionsPerRun := 0, CooldownWindow := 0 }
        Schedule := none } }

/-- A deployment last active 48 hours before `scenarioClock`. -/
def scenarioDeployment : Deployment :=
  { Name := str "web", Namespace := str "dev-test", Labels := [],
    Annotations := [(str "finops.io/last-activity", str "2026-01-01T00:00:00Z")],
    Replicas := some 3 }

def scenarioCost : CostData := { HourlyCost := Float64.fin 2 }

/-- A deployment whose `finops.io/paused-at` lies in the year 2100. -/
def futurePausedDeployment : Deployment :=
  { Name := str "web", Namespace := str "dev-test", Labels := [],
    Annotations := [(str "finops.io/paused-at", str "2100-01-01T00:00:00Z")],
    Replicas := some 3 }

/-- A schedule in `UTC` with one window that is skipped (three hour bounds) and
one for the weekend, hours 0 to 6. -/
def scenarioSchedule : ScheduleSpec :=
  { Timezone := str "UTC"
    ActiveHours :=
      [ { Days := [str "Sat"], Hours := [0, 6, 12] },
        { Days := [str "Sat", str "Sun"], Hours := [0, 6] } ] }

/-- The reasons `Evaluate` records when a check fails, in the order of its
checks. -/
def gateReasons : List GoString :=
  [str "already paused", str "excluded by annotation", str "namespace not in scope",
   str "labels do not match", str "cost below threshold", str "not idle long enough",
   str "outside scheduled hours", str "cooldown not expired"]

/-- A clock that shows the same instant at the three places where an
evaluation reads it. -/
def singleInstant (now : Time) : Clock := { idle := now, schedule := now, cooldown := now }

/-- A schedule in `UTC` whose windows all start later than they end: every day
from 22 to 6, and Saturday from 23 to 0. -/
def overnightSchedule : ScheduleSpec :=
  { Timezone := str "UTC"
    ActiveHours :=
      [ { Days := [str "Sun", str "Mon", str "Tue", str "Wed", str "Thu", str "Fri",
                   str "Sat"], Hours := [22, 6] },
        { Days := [str "Sat"], Hours := [23, 0] } ] }

/-- The policy `scenarioPolicy` with a schedule (Saturday, hours 0 to 6, in
`UTC`) and a cooldown window of 55 hours. -/
def boundaryPolicy : EnforcementPolicy :=
  { Name := str "idle-dev"
    Spec :=
      { Scope := { Namespaces := { Include := [str "dev-*"], Exclude := [] }, Labels := none }
        Conditions := { IdleWindow := 86400000000000, MinHourlyCost := Float64.fin 1 }
        Actions := { Type_ := str "scaleToZero", Notify := str "none",
                     ReactivationAllowed := true }
        Enforcement := { DryRun := true, MaxActionsPerRun := 0,
                         CooldownWindow := 198000000000000 }
        Schedule := some { Timezone := str "UTC",
                           ActiveHours := [ { Days := [str "Sat"], Hours := [0, 6] } ] } } }

/-- A deployment last active and last paused at 2026-01-01T00:00:00Z: under
`boundaryPolicy` its cooldown ends at 2026-01-03T07:00:00Z. -/
def boundaryDeployment : Deployment :=
  { Name := str "web", Namespace := str "dev-test", Labels := [],
    Annotations := [(str "finops.io/last-activity", str "2026-01-01T00:00:00Z"),
                    (str "finops.io/paused-at", str "2026-01-01T00:00:00Z")],
    Replicas := some 3 }

/-- Three successive readings of the clock around 2026-01-03T07:00:00Z (a
Saturday): two and one nanosecond before the hour, and the hour itself. -/
def boundaryClock : Clock :=
  { idle := 1767423599999999998, schedule := 1767423599999999999,
    cooldown := 1767423600000000000 }

/-- Three successive readings of the clock in the first second of
2026-01-03T00:00:00Z. -/
def steadyClock : Clock :=
  { idle := 1767398400000000000, schedule := 1767398400000000001,
    cooldown := 1767398400000000002 }

/-! ## The library routines always return -/

theorem first_cases (b : Nat) :
    first b = utf8_as ∨ first b = utf8_xx ∨ first b = utf8_s1 ∨ first b = utf8_s2 ∨
    first b = utf8_s3 ∨ first b = utf8_s4 ∨ first b = utf8_s5 ∨ first b = utf8_s6 ∨
    first b = utf8_s7 := by
  unfold first
  split_ifs <;> simp

theorem utf8_size_values :
    (2 &&& 7 : Nat) = 2 ∧ (19 &&& 7 : Nat) = 3 ∧ (3 &&& 7 : Nat) = 3 ∧ (35 &&& 7 : Nat) = 3 ∧
    (52 &&& 7 : Nat) = 4 ∧ (4 &&& 7 : Nat) = 4 ∧ (68 &&& 7 : Nat) = 4 := by decide

set_option maxHeartbeats 2000000 in
/-- `DecodeRuneInString` never panics; the width it reports is at most the
length of the string, and at least one on a non-empty string. -/
theorem DecodeRuneInString_returns (s : GoString) :
    ∃ p, DecodeRuneInString s = some p ∧ p.2 ≤ s.length ∧ (s ≠ [] → 1 ≤ p.2) := by
  obtain ⟨e1, e2, e3, e4, e5, e6, e7⟩ := utf8_size_values
  match s with
  | [] => exact ⟨(RuneError, 0), by simp [DecodeRuneInString]⟩
  | [a] =>
    rcases first_cases a with h | h | h | h | h | h | h | h | h <;>
      simp [DecodeRuneInString, byteAt, h, utf8_as, utf8_xx, utf8_s1, utf8_s2, utf8_s3,
        utf8_s4, utf8_s5, utf8_s6, utf8_s7, e1, e2, e3, e4, e5, e6, e7]
  | [a, b] =>
    rcases first_cases a with h | h | h | h | h | h | h | h | h <;>
      simp [DecodeRuneInString, byteAt, h, utf8_as, utf8_xx, utf8_s1, utf8_s2, utf8_s3,
        utf8_s4, utf8_s5, utf8_s6, utf8_s7, e1, e2, e3, e4, e5, e6, e7] <;>
      (try split_ifs) <;> (try simp) <;>
      exact ⟨_, _, ⟨rfl, rfl⟩, by omega, by omega⟩
  | [a, b, c] =>
    rcases first_cases a with h | h | h | h | h | h | h | h | h <;>
      simp [DecodeRuneInString, byteAt, h, utf8_as, utf8_xx, utf8_s1, utf8_s2, utf8_s3,
        utf8_s4, utf8_s5, utf8_s6, utf8_s7, e1, e2, e3, e4, e5, e6, e7] <;>
      (try split_ifs) <;> (try simp) <;>
      exact ⟨_, _, ⟨rfl, rfl⟩, by omega, by omega⟩
  | a :: b :: c :: d :: rest =>
    rcases first_cases a with h | h | h | h | h | h | h | h | h <;>
      simp [DecodeRuneInString, byteAt, h, utf8_as, utf8_xx, utf8_s1, utf8_s2, utf8_s3,
        utf8_s4, utf8_s5, utf8_s6, utf8_s7, e1, e2, e3, e4, e5, e6, e7] <;>
      (try split_ifs) <;> (try simp) <;>
      exact ⟨_, _, ⟨rfl, rfl⟩, by omega, by omega⟩

theorem sliceFrom_of_le (s : GoString) (n : Nat) (h : n ≤ s.length) :
    sliceFrom s n = some (s.drop n) := by
  simp [sliceFrom, h]

theorem byteAt_zero_cons (c : Nat) (s : GoString) : byteAt (c :: s) 0 = some c := rfl

/-- `getEsc` never panics; without error it leaves a non-empty, shorter chunk. -/
theorem getEsc_returns (chunk : GoString) :
    ∃ r nchunk err, getEsc chunk = some (r, nchunk, err) ∧
      (err = none → nchunk ≠ [] ∧ nchunk.length < chunk.length) := by
  cases chunk with
  | nil => exact ⟨0, [], _, rfl, by simp⟩
  | cons c rest =>
    unfold getEsc
    by_cases h1 : c = 45 ∨ c = 93
    · exact ⟨0, [], some GoError.ErrBadPattern, by simp [h1], by simp⟩
    · by_cases h2 : c = 92 ∧ rest = []
      · exact ⟨0, [], some GoError.ErrBadPattern, by simp [h1, h2], by simp⟩
      · simp only [h1, h2, if_false]
        have hne : (if c = 92 then rest else c :: rest) ≠ [] := by
          split_ifs with h
          · intro h'; exact h2 ⟨h, h'⟩
          · simp
        have hlen : (if c = 92 then rest else c :: rest).length ≤ (c :: rest).length := by
          split_ifs <;> simp
        obtain ⟨p, hp, hle, hge⟩ := DecodeRuneInString_returns (if c = 92 then rest else c :: rest)
        have hge1 := hge hne
        obtain ⟨r, n⟩ := p
        simp only at hle hge1
        refine ⟨r, (if c = 92 then rest else c :: rest).drop n,
          (if ((if c = 92 then rest else c :: rest).drop n).length = 0
            then some GoError.ErrBadPattern
            else if r = RuneError ∧ n = 1 then some GoError.ErrBadPattern else none), ?_, ?_⟩
        · simp only [Option.bind_eq_bind, hp, Option.some_bind, sliceFrom_of_le _ _ hle]
        · intro herr
          have hlen2 : ((if c = 92 then rest else c :: rest).drop n).length ≠ 0 := by
            intro h0
            simp [h0] at herr
          constructor
          · intro h0; rw [h0] at hlen2; simp at hlen2
          · rw [List.length_drop] at hlen2 ⊢
            omega

/-- With fuel beyond the length of the chunk, `classLoop` never panics; without
error the chunk it leaves is shorter. -/
theorem classLoop_returns (fuel : Nat) :
    ∀ (chunk : GoString) (r : Nat) (m : Bool) (k : Nat), chunk.length < fuel →
      ∃ c1 m1 e, classLoop fuel chunk r m k = some (c1, m1, e) ∧
        (e = none → c1.length < chunk.length) := by
  induction fuel with
  | zero => intro chunk r m k h; omega
  | succ fuel ih =>
    intro chunk r m k hfuel
    rw [classLoop]
    by_cases hclose : chunk.head? = some 93 ∧ k > 0
    · refine ⟨chunk.drop 1, m, none, by simp [hclose], ?_⟩
      intro _
      cases chunk with
      | nil => simp at hclose
      | cons c t => simp
    · obtain ⟨lo, chunk1, err, hg, hprop⟩ := getEsc_returns chunk
      simp only [hclose, if_false, Option.bind_eq_bind, hg, Option.some_bind]
      cases err with
      | some e => exact ⟨[], false, some e, by simp, by simp⟩
      | none =>
        obtain ⟨hne, hlt⟩ := hprop rfl
        cases chunk1 with
        | nil => exact absurd rfl hne
        | cons c0 t =>
          simp only [ne_eq, not_true_eq_false, if_false, byteAt_zero_cons, Option.some_bind]
          by_cases hdash : c0 = 45
          · subst hdash
            obtain ⟨hi, chunk2, err2, hg2, hprop2⟩ := getEsc_returns t
            have hs : sliceFrom (45 :: t) 1 = some t := by simp [sliceFrom]
            simp only [if_true, hs, Option.some_bind, hg2]
            cases err2 with
            | some e => exact ⟨[], false, some e, by simp, by simp⟩
            | none =>
              obtain ⟨_, hlt2⟩ := hprop2 rfl
              simp only [List.length_cons] at hlt
              obtain ⟨c1, m1, e, h1, h2⟩ := ih chunk2 r
                (m || (decide (lo ≤ r) && decide (r ≤ hi))) (k + 1) (by omega)
              refine ⟨c1, m1, e, by simpa using h1, ?_⟩
              intro he
              have := h2 he
              omega
          · simp only [hdash, if_false]
            obtain ⟨c1, m1, e, h1, h2⟩ := ih (c0 :: t) r
              (m || (decide (lo ≤ r) && decide (r ≤ lo))) (k + 1) (by omega)
            refine ⟨c1, m1, e, h1, ?_⟩
            intro he
            have := h2 he
            omega

/-- A sequence of two steps returns when both do. -/
theorem bind_returns {α β : Type} {A : Option α} {f : α → Option β}
    (hA : ∃ a, A = some a) (hf : ∀ a, A = some a → ∃ r, f a = some r) :
    ∃ r, A.bind f = some r := by
  obtain ⟨a, ha⟩ := hA
  obtain ⟨r, hr⟩ := hf a ha
  exact ⟨r, by simp [ha, hr]⟩

/-- With fuel beyond the length of the chunk, the loop of `matchChunk` never
panics. -/
theorem matchChunkLoop_returns (fuel : Nat) :
    ∀ (chunk s : GoString) (failed : Bool), chunk.length < fuel →
      ∃ res, matchChunkLoop fuel chunk s failed = some res := by
  induction fuel with
  | zero => intro chunk s failed h; omega
  | succ fuel ih =>
    intro chunk s failed hfuel
    cases chunk with
    | nil => rw [matchChunkLoop.eq_def]; cases failed <;> simp
    | cons c ctail =>
      simp only [List.length_cons] at hfuel
      rw [matchChunkLoop.eq_def]
      simp only []
      by_cases h91 : c = 91
      · simp only [h91, if_true, Option.bind_eq_bind]
        refine bind_returns ?_ ?_
        · split_ifs with hf
          · refine bind_returns (by
              obtain ⟨p, hp, -⟩ := DecodeRuneInString_returns s; exact ⟨p, hp⟩) ?_
            intro p hp
            obtain ⟨p', hp', hle, -⟩ := DecodeRuneInString_returns s
            rw [hp] at hp'
            cases hp'
            simp [sliceFrom_of_le _ _ hle]
          · exact ⟨_, rfl⟩
        · intro q _
          refine bind_returns ?_ ?_
          · obtain ⟨c1, m1, e, hc, -⟩ := classLoop_returns
              ((if decide (ctail.head? = some 94) = true then ctail.drop 1 else ctail).length + 1)
              (if decide (ctail.head? = some 94) = true then ctail.drop 1 else ctail) q.1 false 0
              (by omega)
            exact ⟨_, hc⟩
          · intro res hres
            obtain ⟨c1, m1, e, hc, hlen⟩ := classLoop_returns
              ((if decide (ctail.head? = some 94) = true then ctail.drop 1 else ctail).length + 1)
              (if decide (ctail.head? = some 94) = true then ctail.drop 1 else ctail) q.1 false 0
              (by omega)
            rw [hres] at hc
            cases hc
            cases e with
            | some e => simp
            | none =>
              have h1 := hlen rfl
              have h2 : (if decide (ctail.head? = some 94) = true then ctail.drop 1
                  else ctail).length ≤ ctail.length := by
                split_ifs <;> simp
              simp only [ne_eq, not_true_eq_false, if_false]
              exact ih _ _ _ (by omega)
      · simp only [h91, if_false]
        by_cases h63 : c = 63
        · simp only [h63, if_true]
          split_ifs with hf
          · cases s with
            | nil => simp at hf
            | cons s0 st =>
              obtain ⟨p, hp, hle, -⟩ := DecodeRuneInString_returns (s0 :: st)
              simp only [Option.bind_eq_bind, byteAt_zero_cons, Option.some_bind, hp,
                sliceFrom_of_le _ _ hle]
              exact ih _ _ _ (by omega)
          · exact ih _ _ _ (by omega)
        · simp only [h63, if_false]
          by_cases h92 : c = 92
          · simp only [h92, if_true]
            cases ctail with
            | nil => simp
            | cons c1 ctail1 =>
              simp only [List.length_cons] at hfuel
              simp only []
              split_ifs with hf
              · cases s with
                | nil => simp at hf
                | cons s0 st =>
                  have hs : sliceFrom (s0 :: st) 1 = some st := by simp [sliceFrom]
                  simp only [Option.bind_eq_bind, byteAt_zero_cons, Option.some_bind, hs]
                  exact ih _ _ _ (by omega)
              · exact ih _ _ _ (by omega)
          · simp only [h92, if_false]
            split_ifs with hf
            · cases s with
              | nil => simp at hf
              | cons s0 st =>
                have hs : sliceFrom (s0 :: st) 1 = some st := by simp [sliceFrom]
                simp only [Option.bind_eq_bind, byteAt_zero_cons, Option.some_bind, hs]
                exact ih _ _ _ (by omega)
            · exact ih _ _ _ (by omega)

/-- Go `matchChunk` never panics. -/
theorem matchChunk_returns (chunk s : GoString) : ∃ res, matchChunk chunk s = some res :=
  matchChunkLoop_returns _ chunk s false (Nat.lt_succ_self _)

/-- The loop over the positions a star may skip to never panics. -/
theorem starLoop_returns (chunk : GoString) (pe : Bool) :
    ∀ name : GoString, ∃ res, starLoop chunk pe name = some res := by
  intro name
  induction name with
  | nil => exact ⟨_, rfl⟩
  | cons c rest ih =>
    rw [starLoop]
    split_ifs with hsep
    · exact ⟨_, rfl⟩
    · obtain ⟨⟨t, ok, err⟩, hm⟩ := matchChunk_returns chunk rest
      simp only [Option.bind_eq_bind, hm, Option.some_bind]
      cases ok with
      | true =>
        simp only [if_true]
        split_ifs
        · exact ih
        · exact ⟨_, rfl⟩
      | false =>
        cases err with
        | some e => exact ⟨_, rfl⟩
        | none => simpa using ih

theorem dropStars_spec (p : GoString) :
    ∀ b : Bool, (dropStars p b).1.length ≤ p.length ∧
      ((dropStars p b).1 = [] ∨ ∃ c t, (dropStars p b).1 = c :: t ∧ c ≠ 42) := by
  induction p with
  | nil => intro b; simp [dropStars]
  | cons c rest ih =>
    intro b
    rw [dropStars]
    split_ifs with h
    · obtain ⟨h1, h2⟩ := ih true
      exact ⟨by simp only [List.length_cons]; omega, h2⟩
    · exact ⟨le_refl _, Or.inr ⟨c, rest, rfl, h⟩⟩

theorem scanIndex_pos (c : Nat) (t : GoString) (inrange : Bool) (h : c ≠ 42) :
    1 ≤ scanIndex (c :: t) inrange := by
  rw [scanIndex.eq_def]
  simp only []
  split_ifs
  · cases t
    · simp
    · simp only []; omega
  all_goals omega

/-- On a non-empty pattern `scanChunk` leaves a shorter pattern. -/
theorem scanChunk_rest_length (pattern : GoString) (h : pattern ≠ []) :
    (scanChunk pattern).2.2.length < pattern.length := by
  obtain ⟨h1, h2⟩ := dropStars_spec pattern false
  have hpos : 0 < pattern.length := List.length_pos.mpr h
  simp only [scanChunk]
  rcases h2 with h2 | ⟨c, t, h2, hc⟩
  · simp [h2, hpos]
  · have := scanIndex_pos c t false hc
    rw [h2] at h1 ⊢
    simp only [List.length_drop, List.length_cons] at h1 ⊢
    omega

/-- With fuel beyond the length of the pattern, the final check of the pattern
never panics. -/
theorem validateRest_returns (fuel : Nat) :
    ∀ pattern : GoString, pattern.length < fuel → ∃ res, validateRest fuel pattern = some res := by
  induction fuel with
  | zero => intro pattern h; omega
  | succ fuel ih =>
    intro pattern hfuel
    rw [validateRest]
    by_cases hlen : pattern.length > 0
    · have hne : pattern ≠ [] := List.length_pos.mp hlen
      have hshort := scanChunk_rest_length pattern hne
      have hfuel1 : (scanChunk pattern).2.2.length < fuel :=
        Nat.lt_of_lt_of_le hshort (Nat.le_of_lt_succ hfuel)
      obtain ⟨⟨t, ok, err⟩, hm⟩ := matchChunk_returns (scanChunk pattern).2.1 []
      rw [if_pos hlen]
      simp only [Option.bind_eq_bind, hm, Option.some_bind]
      cases err with
      | some e => simp
      | none => simpa using ih _ hfuel1
    · rw [if_neg hlen]
      exact ⟨_, rfl⟩

/-- With fuel beyond the length of the pattern, the loop of `Match` never
panics. -/
theorem MatchLoop_returns (fuel : Nat) :
    ∀ pattern name : GoString, pattern.length < fuel →
      ∃ res, MatchLoop fuel pattern name = some res := by
  induction fuel with
  | zero => intro pattern name h; omega
  | succ fuel ih =>
    intro pattern name hfuel
    rw [MatchLoop]
    by_cases hlen : pattern.length > 0
    · have hne : pattern ≠ [] := List.length_pos.mp hlen
      have hshort := scanChunk_rest_length pattern hne
      have hfuel1 : (scanChunk pattern).2.2.length < fuel :=
        Nat.lt_of_lt_of_le hshort (Nat.le_of_lt_succ hfuel)
      rw [if_pos hlen]
      simp only []
      by_cases htrail : (scanChunk pattern).1 = true ∧ (scanChunk pattern).2.1 = []
      · rw [if_pos htrail]
        exact ⟨_, rfl⟩
      · rw [if_neg htrail]
        obtain ⟨⟨t, ok, err⟩, hm⟩ := matchChunk_returns (scanChunk pattern).2.1 name
        simp only [Option.bind_eq_bind, hm, Option.some_bind]
        by_cases hok : ok = true ∧ (t.length = 0 ∨ (scanChunk pattern).2.2.length > 0)
        · rw [if_pos hok]
          exact ih _ _ hfuel1
        · rw [if_neg hok]
          by_cases herr : err ≠ none
          · rw [if_pos herr]
            exact ⟨_, rfl⟩
          · rw [if_neg herr]
            refine bind_returns ?_ ?_
            · split_ifs
              · exact starLoop_returns _ _ _
              · exact ⟨_, rfl⟩
            · intro skipped _
              cases skipped with
              | found t1 => exact ih _ _ hfuel1
              | bad e => exact ⟨_, rfl⟩
              | exhausted => exact validateRest_returns _ _ (Nat.lt_succ_self _)
    · rw [if_neg hlen]
      exact ⟨_, rfl⟩

/-- Go `filepath.Match` never panics: it returns a pair `(matched, err)` on every
pattern and name. -/
theorem Match_returns (pattern name : GoString) : ∃ res, Match pattern name = some res :=
  MatchLoop_returns _ pattern name (Nat.lt_succ_self _)

/-- Go `matchPattern` never panics: it returns a boolean on every pattern and
value. -/
theorem matchPattern_returns (pattern value : GoString) :
    ∃ b, matchPattern pattern value = some b := by
  obtain ⟨⟨m, e⟩, h⟩ := Match_returns pattern value
  exact ⟨m, by simp [matchPattern, h]⟩

theorem anyPatternMatches_returns (patterns : List GoString) (ns : GoString) :
    ∃ b, anyPatternMatches patterns ns = some b := by
  induction patterns with
  | nil => exact ⟨false, rfl⟩
  | cons p rest ih =>
    obtain ⟨b, hb⟩ := matchPattern_returns p ns
    rw [anyPatternMatches]
    cases b <;> simp [hb, ih]

/-- What the pattern loop of `matchesNamespaceScope` computes: whether some
pattern of the list matches. -/
theorem anyPatternMatches_eq_true (patterns : List GoString) (ns : GoString) :
    anyPatternMatches patterns ns = some true ↔
      ∃ p ∈ patterns, matchPattern p ns = some true := by
  induction patterns with
  | nil => simp [anyPatternMatches]
  | cons p rest ih =>
    obtain ⟨b, hb⟩ := matchPattern_returns p ns
    rw [anyPatternMatches]
    cases b <;> simp [hb, ih]

theorem matchesNamespaceScope_returns (ns : GoString) (filter : NamespaceFilter) :
    ∃ b, matchesNamespaceScope ns filter = some b := by
  obtain ⟨b1, h1⟩ := anyPatternMatches_returns filter.Exclude ns
  obtain ⟨b2, h2⟩ := anyPatternMatches_returns filter.Include ns
  cases b1 <;> cases b2 <;> simp [matchesNamespaceScope, h1, h2]

/-- C3: a namespace that matches at least one exclude pattern is out of scope,
whatever the include patterns are. -/
theorem matchesNamespaceScope_exclude_wins (N : GoString) (F : NamespaceFilter)
    (h : ∃ p ∈ F.Exclude, matchPattern p N = some true) :
    matchesNamespaceScope N F = some false := by
  have h1 := (anyPatternMatches_eq_true F.Exclude N).mpr h
  simp [matchesNamespaceScope, h1]

theorem matchesNamespaceScope_exclude_wins_witness :
    (∃ p ∈ [str "prod"], matchPattern p (str "prod") = some true) ∧
      matchesNamespaceScope (str "prod") ⟨[str "*"], [str "prod"]⟩ = some false :=
  ⟨⟨str "prod", by decide, by decide⟩,
   matchesNamespaceScope_exclude_wins (str "prod") ⟨[str "*"], [str "prod"]⟩
     ⟨str "prod", by decide, by decide⟩⟩

/-- C4: when the namespace matches no exclude pattern, it is in scope exactly
when it matches at least one include pattern (the check always returns); with
an empty include list it is out of scope. -/
theorem matchesNamespaceScope_include_iff (N : GoString) (F : NamespaceFilter)
    (h : ∀ p ∈ F.Exclude, matchPattern p N = some false) :
    (matchesNamespaceScope N F = some true ∨ matchesNamespaceScope N F = some false) ∧
    (matchesNamespaceScope N F = some true ↔ ∃ p ∈ F.Include, matchPattern p N = some true) ∧
    (F.Include = [] → matchesNamespaceScope N F = some false) := by
  have hex : anyPatternMatches F.Exclude N = some false := by
    obtain ⟨b, hb⟩ := anyPatternMatches_returns F.Exclude N
    cases b with
    | false => exact hb
    | true =>
      obtain ⟨p, hp, hm⟩ := (anyPatternMatches_eq_true F.Exclude N).mp hb
      rw [h p hp] at hm
      cases hm
  obtain ⟨b, hb⟩ := anyPatternMatches_returns F.Include N
  have hiff := anyPatternMatches_eq_true F.Include N
  refine ⟨?_, ?_, ?_⟩
  · cases b <;> simp [matchesNamespaceScope, hex, hb]
  · rw [← hiff]
    cases b <;> simp [matchesNamespaceScope, hex, hb]
  · intro hempty
    simp [matchesNamespaceScope, hex, hempty, anyPatternMatches]

theorem matchesNamespaceScope_include_iff_witness :
    (∀ p ∈ ([] : List GoString), matchPattern p (str "dev-feature-xyz") = some false) ∧
    matchesNamespaceScope (str "dev-feature-xyz") ⟨[str "dev-*"], []⟩ = some true :=
  ⟨by simp,
   ((matchesNamespaceScope_include_iff (str "dev-feature-xyz") ⟨[str "dev-*"], []⟩
      (by simp)).2.1).mpr ⟨str "dev-*", by decide, by decide⟩⟩

/-- C5: a label map that carries one of the exclude pairs of the filter (the key
is present, with an equal value) does not match the filter, whatever the match
set is. -/
theorem matchesLabelFilter_exclude_wins (L : GoMap) (F : LabelFilter)
    (h : ∃ kv ∈ F.Exclude, L.lookup kv.1 = some kv.2) :
    matchesLabelFilter L F = false := by
  obtain ⟨kv, hkv, hl⟩ := h
  have : F.Exclude.any (fun kv => goLookup L kv.1 == kv.2) = true := by
    rw [List.any_eq_true]
    exact ⟨kv, hkv, by simp [goLookup, hl]⟩
  simp [matchesLabelFilter, this]

theorem matchesLabelFilter_exclude_wins_witness :
    (∃ kv ∈ [(str "env", str "prod")],
        List.lookup kv.1 [(str "env", str "prod"), (str "app", str "web")] = some kv.2) ∧
      matchesLabelFilter [(str "env", str "prod"), (str "app", str "web")]
        ⟨[(str "app", str "web")], [(str "env", str "prod")]⟩ = false :=
  ⟨⟨(str "env", str "prod"), by decide, by decide⟩,
   matchesLabelFilter_exclude_wins [(str "env", str "prod"), (str "app", str "web")]
     ⟨[(str "app", str "web")], [(str "env", str "prod")]⟩
     ⟨(str "env", str "prod"), by decide, by decide⟩⟩

/-- C6: on the empty label map, the filter that requires the label `team` with
the empty value (and excludes nothing) is reported as matched, although the key
`team` is not present in the map. -/
theorem matchesLabelFilter_missing_key_matches :
    List.lookup (str "team") ([] : GoMap) = none ∧
      matchesLabelFilter [] ⟨[(str "team", [])], []⟩ = true := by
  decide

theorem reasons_distinct :
    str "excluded by annotation" ≠ str "already paused" ∧
    str "namespace not in scope" ≠ str "already paused" ∧
    str "labels do not match" ≠ str "already paused" ∧
    str "cost below threshold" ≠ str "already paused" ∧
    str "not idle long enough" ≠ str "already paused" ∧
    str "outside scheduled hours" ≠ str "already paused" ∧
    str "cooldown not expired" ≠ str "already paused" := by decide

theorem isPaused_iff (d : Deployment) :
    isPaused d = true ↔ d.Annotations.lookup (str "finops.io/paused") = some (str "true") := by
  unfold isPaused goLookup
  cases h : d.Annotations.lookup (str "finops.io/paused") with
  | none =>
    have : str "true" ≠ ([] : GoString) := by decide
    simp [this]
  | some v => simp

/-- C1: on a deployment whose replica count is set, `Evaluate` returns a result
and no error; if some gate of the table fails, the result is unmatched and
carries the reason of the first failing gate in the order of the table; the
result is matched exactly when no gate fails. -/
theorem Evaluate_gate_order (lib : Library) (clock : Clock) (policy : EnforcementPolicy)
    (deployment : Deployment) (costData : CostData) (r : Int)
    (hr : deployment.Replicas = some r) :
    ∃ inScope res,
      matchesNamespaceScope deployment.Namespace policy.Spec.Scope.Namespaces = some inScope ∧
      Evaluate lib clock policy deployment costData = some (res, none) ∧
      (∀ reason,
        firstFailure (gateTable lib clock policy deployment costData inScope) = some reason →
          res.Matched = false ∧ res.Reason = reason) ∧
      (res.Matched = true ↔
        ∀ g ∈ gateTable lib clock policy deployment costData inScope, g.1 = false) := by
  obtain ⟨inScope, hs⟩ :=
    matchesNamespaceScope_returns deployment.Namespace policy.Spec.Scope.Namespaces
  refine ⟨inScope, ?_⟩
  simp only [Evaluate, hs, hr, gateTable, firstFailure, Option.bind_eq_bind, Option.some_bind]
  generalize str "already paused" = s1
  generalize str "excluded by annotation" = s2
  generalize str "namespace not in scope" = s3
  generalize str "labels do not match" = s4
  generalize str "cost below threshold" = s5
  generalize str "not idle long enough" = s6
  generalize str "outside scheduled hours" = s7
  generalize str "cooldown not expired" = s8
  generalize buildMatchReason lib policy costData = s9
  generalize isPaused deployment = b1
  generalize isExcluded deployment = b2
  generalize Float64.lt costData.HourlyCost policy.Spec.Conditions.MinHourlyCost = b5
  generalize isIdleLongEnough lib clock.idle deployment policy.Spec.Conditions.IdleWindow = b6
  generalize isCooldownExpired lib clock.cooldown deployment
    policy.Spec.Enforcement.CooldownWindow = b8
  generalize hb8 : decide (policy.Spec.Enforcement.CooldownWindow > 0) = b8a
  have h8 : policy.Spec.Enforcement.CooldownWindow > 0 ↔ b8a = true := by
    rw [← hb8]; simp
  simp only [h8]
  rcases policy.Spec.Scope.Labels with _ | labels
  · rcases policy.Spec.Schedule with _ | schedule
    · cases b1 with
      | true => (refine ⟨_, trivial, rfl, ?_, ?_⟩ <;> simp [List.find?])
      | false =>
      cases b2 with
      | true => (refine ⟨_, trivial, rfl, ?_, ?_⟩ <;> simp [List.find?])
      | false =>
      cases inScope with
      | false => (refine ⟨_, trivial, rfl, ?_, ?_⟩ <;> simp [List.find?])
      | true =>
      cases b5 with
      | true => (refine ⟨_, trivial, rfl, ?_, ?_⟩ <;> simp [List.find?])
      | false =>
      cases b6 with
      | false => (refine ⟨_, trivial, rfl, ?_, ?_⟩ <;> simp [List.find?])
      | true =>
      cases b8a <;> cases b8 <;> (refine ⟨_, trivial, rfl, ?_, ?_⟩ <;> simp [List.find?])
    · dsimp only
      generalize isWithinSchedule lib clock.schedule schedule = b7
      cases b1 with
      | true => (refine ⟨_, trivial, rfl, ?_, ?_⟩ <;> simp [List.find?])
      | false =>
      cases b2 with
      | true => (refine ⟨_, trivial, rfl, ?_, ?_⟩ <;> simp [List.find?])
      | false =>
      cases inScope with
      | false => (refine ⟨_, trivial, rfl, ?_, ?_⟩ <;> simp [List.find?])
      | true =>
      cases b5 with
      | true => (refine ⟨_, trivial, rfl, ?_, ?_⟩ <;> simp [List.find?])
      | false =>
      cases b6 with
      | false => (refine ⟨_, trivial, rfl, ?_, ?_⟩ <;> simp [List.find?])
      | true =>
      cases b7 with
      | false => (refine ⟨_, trivial, rfl, ?_, ?_⟩ <;> simp [List.find?])
      | true =>
      cases b8a <;> cases b8 <;> (refine ⟨_, trivial, rfl, ?_, ?_⟩ <;> simp [List.find?])
  · dsimp only
    generalize matchesLabelFilter deployment.Labels labels = b4
    rcases policy.Spec.Schedule with _ | schedule
    · cases b1 with
      | true => (refine ⟨_, trivial, rfl, ?_, ?_⟩ <;> simp [List.find?])
      | false =>
      cases b2 with
      | true => (refine ⟨_, trivial, rfl, ?_, ?_⟩ <;> simp [List.find?])
      | false =>
      cases inScope with
      | false => (refine ⟨_, trivial, rfl, ?_, ?_⟩ <;> simp [List.find?])
      | true =>
      cases b4 with
      | false => (refine ⟨_, trivial, rfl, ?_, ?_⟩ <;> simp [List.find?])
      | true =>
      cases b5 with
      | true => (refine ⟨_, trivial, rfl, ?_, ?_⟩ <;> simp [List.find?])
      | false =>
      cases b6 with
      | false => (refine ⟨_, trivial, rfl, ?_, ?_⟩ <;> simp [List.find?])
      | true =>
      cases b8a <;> cases b8 <;> (refine ⟨_, trivial, rfl, ?_, ?_⟩ <;> simp [List.find?])
    · dsimp only
      generalize isWithinSchedule lib clock.schedule schedule = b7
      cases b1 with
      | true => (refine ⟨_, trivial, rfl, ?_, ?_⟩ <;> simp [List.find?])
      | false =>
      cases b2 with
      | true => (refine ⟨_, trivial, rfl, ?_, ?_⟩ <;> simp [List.find?])
      | false =>
      cases inScope with
      | false => (refine ⟨_, trivial, rfl, ?_, ?_⟩ <;> simp [List.find?])
      | true =>
      cases b4 with
      | false => (refine ⟨_, trivial, rfl, ?_, ?_⟩ <;> simp [List.find?])
      | true =>
      cases b5 with
      | true => (refine ⟨_, trivial, rfl, ?_, ?_⟩ <;> simp [List.find?])
      | false =>
      cases b6 with
      | false => (refine ⟨_, trivial, rfl, ?_, ?_⟩ <;> simp [List.find?])
      | true =>
      cases b7 with
      | false => (refine ⟨_, trivial, rfl, ?_, ?_⟩ <;> simp [List.find?])
      | true =>
      cases b8a <;> cases b8 <;> (refine ⟨_, trivial, rfl, ?_, ?_⟩ <;> simp [List.find?])

/-- C2: `Evaluate` returns an unmatched result with reason "already paused" and
no action exactly when the annotation `finops.io/paused` of the deployment is
present with the value `true`; whatever the other inputs are. -/
theorem Evaluate_paused_iff (lib : Library) (clock : Clock) (policy : EnforcementPolicy)
    (deployment : Deployment) (costData : CostData) :
    (∃ res err, Evaluate lib clock policy deployment costData = some (res, err) ∧
        res.Matched = false ∧ res.Reason = str "already paused" ∧ res.Action = none) ↔
      deployment.Annotations.lookup (str "finops.io/paused") = some (str "true") := by
  rw [← isPaused_iff]
  constructor
  · rintro ⟨res, err, he, hm, hre, -⟩
    by_contra hp
    have hp1 : isPaused deployment = false := by simpa using hp
    obtain ⟨inScope, hs⟩ :=
      matchesNamespaceScope_returns deployment.Namespace policy.Spec.Scope.Namespaces
    obtain ⟨d2, d3, d4, d5, d6, d7, d8⟩ := reasons_distinct
    simp only [Evaluate, hs, hp1, Option.bind_eq_bind, Option.some_bind, Bool.false_eq_true,
      if_false] at he
    generalize str "already paused" = s1 at *
    generalize str "excluded by annotation" = s2 at *
    generalize str "namespace not in scope" = s3 at *
    generalize str "labels do not match" = s4 at *
    generalize str "cost below threshold" = s5 at *
    generalize str "not idle long enough" = s6 at *
    generalize str "outside scheduled hours" = s7 at *
    generalize str "cooldown not expired" = s8 at *
    generalize buildMatchReason lib policy costData = s9 at *
    generalize isExcluded deployment = b2 at *
    generalize Float64.lt costData.HourlyCost policy.Spec.Conditions.MinHourlyCost = b5 at *
    generalize isIdleLongEnough lib clock.idle deployment policy.Spec.Conditions.IdleWindow
      = b6 at *
    generalize isCooldownExpired lib clock.cooldown deployment
      policy.Spec.Enforcement.CooldownWindow = b8 at *
    generalize hb8 : decide (policy.Spec.Enforcement.CooldownWindow > 0) = b8a at *
    have h8 : policy.Spec.Enforcement.CooldownWindow > 0 ↔ b8a = true := by
      rw [← hb8]; simp
    simp only [h8] at he
    clear hb8 h8
    rcases hL : policy.Spec.Scope.Labels with _ | labels <;> rw [hL] at he <;> dsimp only at he
    · rcases hS : policy.Spec.Schedule with _ | schedule <;> rw [hS] at he <;> dsimp only at he
      · cases b2 with
        | true => (simp at he; obtain ⟨rfl, -⟩ := he; simp_all)
        | false =>
        cases inScope with
        | false => (simp at he; obtain ⟨rfl, -⟩ := he; simp_all)
        | true =>
        cases b5 with
        | true => (simp at he; obtain ⟨rfl, -⟩ := he; simp_all)
        | false =>
        cases b6 with
        | false => (simp at he; obtain ⟨rfl, -⟩ := he; simp_all)
        | true =>
        cases b8a <;> cases b8 <;> cases hrep : deployment.Replicas <;>
          simp [hrep] at he <;> (try (obtain ⟨rfl, -⟩ := he; simp_all))
      · generalize isWithinSchedule lib clock.schedule schedule = b7 at *
        cases b2 with
        | true => (simp at he; obtain ⟨rfl, -⟩ := he; simp_all)
        | false =>
        cases inScope with
        | false => (simp at he; obtain ⟨rfl, -⟩ := he; simp_all)
        | true =>
        cases b5 with
        | true => (simp at he; obtain ⟨rfl, -⟩ := he; simp_all)
        | false =>
        cases b6 with
        | false => (simp at he; obtain ⟨rfl, -⟩ := he; simp_all)
        | true =>
        cases b7 with
        | false => (simp at he; obtain ⟨rfl, -⟩ := he; simp_all)
        | true =>
        cases b8a <;> cases b8 <;> cases hrep : deployment.Replicas <;>
          simp [hrep] at he <;> (try (obtain ⟨rfl, -⟩ := he; simp_all))
    · generalize matchesLabelFilter deployment.Labels labels = b4 at *
      rcases hS : policy.Spec.Schedule with _ | schedule <;> rw [hS] at he <;> dsimp only at he
      · cases b2 with
        | true => (simp at he; obtain ⟨rfl, -⟩ := he; simp_all)
        | false =>
        cases inScope with
        | false => (simp at he; obtain ⟨rfl, -⟩ := he; simp_all)
        | true =>
        cases b4 with
        | false => (simp at he; obtain ⟨rfl, -⟩ := he; simp_all)
        | true =>
        cases b5 with
        | true => (simp at he; obtain ⟨rfl, -⟩ := he; simp_all)
        | false =>
        cases b6 with
        | false => (simp at he; obtain ⟨rfl, -⟩ := he; simp_all)
        | true =>
        cases b8a <;> cases b8 <;> cases hrep : deployment.Replicas <;>
          simp [hrep] at he <;> (try (obtain ⟨rfl, -⟩ := he; simp_all))
      · generalize isWithinSchedule lib clock.schedule schedule = b7 at *
        cases b2 with
        | true => (simp at he; obtain ⟨rfl, -⟩ := he; simp_all)
        | false =>
        cases inScope with
        | false => (simp at he; obtain ⟨rfl, -⟩ := he; simp_all)
        | true =>
        cases b4 with
        | false => (simp at he; obtain ⟨rfl, -⟩ := he; simp_all)
        | true =>
        cases b5 with
        | true => (simp at he; obtain ⟨rfl, -⟩ := he; simp_all)
        | false =>
        cases b6 with
        | false => (simp at he; obtain ⟨rfl, -⟩ := he; simp_all)
        | true =>
        cases b7 with
        | false => (simp at he; obtain ⟨rfl, -⟩ := he; simp_all)
        | true =>
        cases b8a <;> cases b8 <;> cases hrep : deployment.Replicas <;>
          simp [hrep] at he <;> (try (obtain ⟨rfl, -⟩ := he; simp_all))
  · intro hp
    refine ⟨{ Policy := policy, Deployment := deployment, CostData := costData,
              Matched := false, Reason := str "already paused", Action := none },
            none, ?_, rfl, rfl, rfl⟩
    simp only [Evaluate, hp, if_true]

theorem str_star : str "*" = [42] := by decide

/-- What `filepath.Match` answers for the pattern `*`. -/
theorem Match_star (v : GoString) :
    Match [42] v = some (!containsByte v Separator, none) := by
  simp [Match, MatchLoop, scanChunk, dropStars, scanIndex]

theorem isLiteral_cons (c : Nat) (p : GoString) :
    isLiteral (c :: p) = true ↔
      (c ≠ 42 ∧ c ≠ 63 ∧ c ≠ 91 ∧ c ≠ 92) ∧ isLiteral p = true := by
  simp [isLiteral, isMetaByte]
  tauto

theorem dropStars_literal (p rest : GoString) (h : isLiteral p = true) (hne : p ≠ []) :
    dropStars (p ++ rest) false = (p ++ rest, false) := by
  cases p with
  | nil => exact absurd rfl hne
  | cons c t =>
    obtain ⟨⟨h42, -⟩, -⟩ := (isLiteral_cons c t).mp h
    simp [dropStars, h42]

theorem scanIndex_literal (p : GoString) (h : isLiteral p = true) :
    ∀ rest : GoString, (rest = [] ∨ rest.head? = some 42) →
      scanIndex (p ++ rest) false = p.length := by
  induction p with
  | nil =>
    intro rest hrest
    rcases hrest with hrest | hrest
    · simp [hrest, scanIndex]
    · cases rest with
      | nil => simp [scanIndex]
      | cons c t =>
        simp at hrest
        subst hrest
        rw [List.nil_append, scanIndex.eq_def]
        simp
  | cons c t ih =>
    intro rest hrest
    obtain ⟨⟨h42, h63, h91, h92⟩, ht⟩ := (isLiteral_cons c t).mp h
    have := ih ht rest hrest
    rw [List.cons_append, scanIndex.eq_def]
    simp only [h92, h91, h42, if_false]
    split_ifs <;> simp [this] <;> omega

theorem scanChunk_literal (p rest : GoString) (h : isLiteral p = true) (hne : p ≠ [])
    (hrest : rest = [] ∨ rest.head? = some 42) :
    scanChunk (p ++ rest) = (false, p, rest) := by
  simp [scanChunk, dropStars_literal p rest h hne, scanIndex_literal p h rest hrest]

/-- Once the match has failed, a literal chunk is only checked: no error. -/
theorem matchChunkLoop_literal_failed (p : GoString) (h : isLiteral p = true) :
    ∀ (fuel : Nat) (s : GoString), p.length < fuel →
      matchChunkLoop fuel p s true = some ([], false, none) := by
  induction p with
  | nil =>
    intro fuel s hf
    cases fuel with
    | zero => omega
    | succ fuel => rw [matchChunkLoop.eq_def]; rfl
  | cons c t ih =>
    intro fuel s hf
    obtain ⟨⟨h42, h63, h91, h92⟩, ht⟩ := (isLiteral_cons c t).mp h
    cases fuel with
    | zero => omega
    | succ fuel =>
      simp only [List.length_cons] at hf
      rw [matchChunkLoop.eq_def]
      simp only []
      simp only [h91, h63, h92, if_false, Bool.true_or, Bool.not_true, Bool.false_eq_true]
      exact ih ht fuel s (by omega)

/-- A literal chunk matches the beginning of `s` exactly when `s` starts with
it; the rest of `s` is returned. -/
theorem matchChunkLoop_literal (p : GoString) (h : isLiteral p = true) :
    ∀ (fuel : Nat) (s : GoString), p.length < fuel →
      matchChunkLoop fuel p s false =
        some (if startsWith s p then (s.drop p.length, true, none) else ([], false, none)) := by
  induction p with
  | nil =>
    intro fuel s hf
    cases fuel with
    | zero => omega
    | succ fuel =>
      rw [matchChunkLoop.eq_def]
      simp [startsWith]
  | cons c t ih =>
    intro fuel s hf
    obtain ⟨⟨h42, h63, h91, h92⟩, ht⟩ := (isLiteral_cons c t).mp h
    cases fuel with
    | zero => omega
    | succ fuel =>
      simp only [List.length_cons] at hf
      rw [matchChunkLoop.eq_def]
      simp only []
      simp only [h91, h63, h92, if_false]
      cases s with
      | nil =>
        simp only [List.length_nil, decide_True, Bool.or_true, Bool.not_true,
          Bool.false_eq_true, if_false]
        rw [matchChunkLoop_literal_failed t ht fuel [] (by omega)]
        simp [startsWith]
      | cons s0 st =>
        have hs : sliceFrom (s0 :: st) 1 = some st := by simp [sliceFrom]
        simp only [List.length_cons, Nat.add_one_ne_zero, decide_False, Bool.or_false,
          Bool.not_false, if_true, Option.bind_eq_bind, byteAt_zero_cons, Option.some_bind, hs,
          Bool.false_or]
        by_cases hc : c = s0
        · subst hc
          simp only [ne_eq, not_true_eq_false, decide_False]
          rw [ih ht fuel st (by omega)]
          simp [startsWith]
        · simp only [ne_eq, hc, not_false_eq_true, decide_True]
          rw [matchChunkLoop_literal_failed t ht fuel st (by omega)]
          have : ¬ (s0 = c) := fun h => hc h.symm
          simp [startsWith, this]

theorem matchChunk_literal (p s : GoString) (h : isLiteral p = true) :
    matchChunk p s =
      some (if startsWith s p then (s.drop p.length, true, none) else ([], false, none)) :=
  matchChunkLoop_literal p h _ s (Nat.lt_succ_self _)

theorem startsWith_drop_nil (v p : GoString) :
    (startsWith v p = true ∧ (v.drop p.length).length = 0) ↔ v = p := by
  unfold startsWith
  constructor
  · rintro ⟨h1, h2⟩
    have h1 : v.take p.length = p := by simpa using h1
    have h2 : v.drop p.length = [] := List.length_eq_zero.mp h2
    have := List.take_append_drop p.length v
    rw [h1, h2, List.append_nil] at this
    exact this.symm
  · rintro rfl
    simp

/-- What `filepath.Match` answers for a pattern without metacharacter. -/
theorem Match_literal (p v : GoString) (h : isLiteral p = true) :
    Match p v = some (decide (v = p), none) := by
  cases hp : p with
  | nil =>
    simp only [Match, List.length_nil, Nat.zero_add]
    rw [MatchLoop]
    cases v <;> simp
  | cons c t =>
    rw [← hp]
    have hne : p ≠ [] := by rw [hp]; simp
    have hlen : p.length > 0 := List.length_pos.mpr hne
    have hsc : scanChunk p = (false, p, []) := by
      have := scanChunk_literal p [] h hne (Or.inl rfl)
      simpa using this
    obtain ⟨k, hk⟩ : ∃ k, p.length = k + 1 := ⟨p.length - 1, by omega⟩
    simp only [Match]
    rw [MatchLoop, if_pos hlen, hsc]
    simp only [Bool.false_eq_true, false_and, if_false, matchChunk_literal p v h,
      Option.bind_eq_bind, Option.some_bind]
    by_cases hs : startsWith v p = true
    · simp only [hs, if_true, true_and]
      by_cases hd : (v.drop p.length).length = 0
      · have hv : v = p := (startsWith_drop_nil v p).mp ⟨hs, hd⟩
        have hml : ∀ t : GoString,
            MatchLoop p.length [] t = some (decide (t.length = 0), none) := by
          intro t
          rw [hk, MatchLoop]
          simp
        rw [if_pos (Or.inl hd), hml, hd]
        simp [hv]
      · have hv : ¬ v = p := fun hv => hd ((startsWith_drop_nil v p).mpr hv).2
        have hc : ¬ ((v.drop p.length).length = 0 ∨ ([] : GoString).length > 0) := by
          simp only [List.length_nil, gt_iff_lt, lt_self_iff_false, or_false]
          exact hd
        rw [if_neg hc]
        simp [hv, validateRest]
    · have hv : ¬ v = p := fun hv => hs ((startsWith_drop_nil v p).mpr hv).1
      simp [hs, hv, validateRest]

/-- What `filepath.Match` answers for a literal followed by a star. -/
theorem Match_literal_star (p v : GoString) (h : isLiteral p = true) :
    Match (p ++ [42]) v =
      some (startsWith v p && !containsByte (v.drop p.length) Separator, none) := by
  cases hp : p with
  | nil =>
    simp only [List.nil_append, Match_star, startsWith]
    simp
  | cons c t =>
    rw [← hp]
    have hne : p ≠ [] := by rw [hp]; simp
    have hlen : (p ++ [42]).length > 0 := by simp
    have hsc : scanChunk (p ++ [42]) = (false, p, [42]) :=
      scanChunk_literal p [42] h hne (Or.inr rfl)
    obtain ⟨k, hk⟩ : ∃ k, p.length = k + 1 :=
      ⟨p.length - 1, by have := List.length_pos.mpr hne; omega⟩
    have hstar : ∀ (t : GoString), MatchLoop (k + 1 + 1) [42] t
        = some (!containsByte t Separator, none) := by
      intro t
      simp [MatchLoop, scanChunk, dropStars, scanIndex]
    simp only [Match]
    rw [MatchLoop, if_pos hlen, hsc]
    simp only [Bool.false_eq_true, false_and, if_false, matchChunk_literal p v h,
      Option.bind_eq_bind, Option.some_bind]
    by_cases hs : startsWith v p = true
    · simp only [hs, if_true, true_and, List.length_cons, List.length_nil, Nat.zero_add,
        gt_iff_lt, Nat.lt_one_iff, Nat.pos_of_ne_zero, or_true, List.length_append, hk, hstar,
        Bool.true_and, zero_lt_one]
    · simp [hs, validateRest, scanChunk, dropStars, scanIndex, matchChunk, matchChunkLoop]

/-- C7: the pattern `*` matches exactly the values that contain no separator
`/`; in particular it matches every value without a `/`. -/
theorem matchPattern_star (v : GoString) :
    matchPattern (str "*") v = some (!containsByte v Separator) := by
  rw [str_star]
  simp [matchPattern, Match_star]

/-- C7, as stated, fails: the pattern `*` does not match the value `a/b`. -/
theorem matchPattern_star_counterexample :
    matchPattern (str "*") (str "a/b") = some false := by decide

/-- C9: a pattern without glob metacharacter matches exactly the value equal
to it (anchored, case-sensitive). -/
theorem matchPattern_literal (p v : GoString) (h : isLiteral p = true) :
    matchPattern p v = some (decide (v = p)) := by
  simp [matchPattern, Match_literal p v h]

theorem matchPattern_literal_witness :
    isLiteral (str "exact") = true ∧
      matchPattern (str "exact") (str "Exact") = some (decide (str "Exact" = str "exact")) :=
  ⟨by decide, matchPattern_literal (str "exact") (str "Exact") (by decide)⟩

/-- C10 as amended: a literal followed by `*` matches exactly the values that
start with the literal and whose remainder contains no separator `/`. -/
theorem matchPattern_literal_star (p v : GoString) (h : isLiteral p = true) :
    matchPattern (p ++ str "*") v =
      some (startsWith v p && !containsByte (v.drop p.length) Separator) := by
  rw [str_star]
  simp [matchPattern, Match_literal_star p v h]

theorem matchPattern_literal_star_witness :
    isLiteral (str "dev-") = true ∧
      matchPattern (str "dev-" ++ str "*") (str "dev-feature-xyz") =
        some (startsWith (str "dev-feature-xyz") (str "dev-") &&
          !containsByte ((str "dev-feature-xyz").drop (str "dev-").length) Separator) :=
  ⟨by decide, matchPattern_literal_star (str "dev-") (str "dev-feature-xyz") (by decide)⟩

/-- C10, as stated, fails: `dev-a/b` starts with `dev-`, yet `dev-*` does not
match it. -/
theorem matchPattern_literal_star_counterexample :
    isLiteral (str "dev-") = true ∧ startsWith (str "dev-a/b") (str "dev-") = true ∧
      matchPattern (str "dev-" ++ str "*") (str "dev-a/b") = some false := by decide

/-- The rest of the chunk and the error `classLoop` returns do not depend on
the rune compared nor on the matches found so far. -/
theorem classLoop_err_indep (fuel : Nat) :
    ∀ (chunk : GoString) (r r' : Nat) (m m' : Bool) (k : Nat),
      (classLoop fuel chunk r m k).map (fun x => (x.1, x.2.2)) =
        (classLoop fuel chunk r' m' k).map (fun x => (x.1, x.2.2)) := by
  induction fuel with
  | zero => intro chunk r r' m m' k; rfl
  | succ fuel ih =>
    intro chunk r r' m m' k
    simp only [classLoop]
    by_cases hclose : chunk.head? = some 93 ∧ k > 0
    · simp only [hclose, and_self, if_true, Option.map_some']
    · simp only [hclose, if_false, Option.bind_eq_bind]
      rcases hg : getEsc chunk with _ | ⟨lo, chunk1, err⟩
      · rfl
      · simp only [Option.some_bind]
        cases err with
        | some e => simp
        | none =>
          simp only [ne_eq, not_true_eq_false, if_false]
          rcases hb : byteAt chunk1 0 with _ | c0
          · rfl
          · simp only [Option.some_bind]
            by_cases hdash : c0 = 45
            · simp only [hdash, if_true]
              rcases hsl : sliceFrom chunk1 1 with _ | rest
              · rfl
              · simp only [Option.some_bind]
                rcases hg2 : getEsc rest with _ | ⟨hi, chunk2, err2⟩
                · rfl
                · simp only [Option.some_bind]
                  cases err2 with
                  | some e => simp
                  | none =>
                    simp only [ne_eq, not_true_eq_false, if_false]
                    exact ih _ _ _ _ _ _
            · simp only [hdash, if_false]
              exact ih _ _ _ _ _ _

/-- The error `matchChunk` returns depends on the chunk only: it is the one
found when the chunk is merely checked (against the empty string, the match
having failed). -/
theorem matchChunkLoop_err_indep (fuel : Nat) :
    ∀ (chunk s : GoString) (failed : Bool),
      (matchChunkLoop fuel chunk s failed).map (fun x => x.2.2) =
        (matchChunkLoop fuel chunk [] true).map (fun x => x.2.2) := by
  induction fuel with
  | zero => intro chunk s failed; rfl
  | succ fuel ih =>
    intro chunk s failed
    cases chunk with
    | nil =>
      conv_lhs => rw [matchChunkLoop.eq_def]
      conv_rhs => rw [matchChunkLoop.eq_def]
      cases failed <;> simp
    | cons c ctail =>
      conv_lhs => rw [matchChunkLoop.eq_def]
      conv_rhs => rw [matchChunkLoop.eq_def]
      simp only [Bool.true_or, Bool.not_true, Bool.false_eq_true, if_false]
      by_cases h91 : c = 91
      · simp only [h91, if_true, Option.bind_eq_bind, Option.pure_def, Option.some_bind]
        have hfirst : ∃ q : Nat × GoString,
            (if (!(failed || decide (s.length = 0))) = true then
                (DecodeRuneInString s).bind fun p =>
                  (sliceFrom s p.2).bind fun s1 => some (p.1, s1)
              else some (0, s)) = some q := by
          split_ifs with hf
          · obtain ⟨p, hp, hle, -⟩ := DecodeRuneInString_returns s
            exact ⟨(p.1, s.drop p.2), by simp [hp, sliceFrom_of_le _ _ hle]⟩
          · exact ⟨(0, s), rfl⟩
        obtain ⟨q, hq⟩ := hfirst
        rw [hq]
        simp only [Option.some_bind]
        have hsyn := classLoop_err_indep
          ((if decide (ctail.head? = some 94) = true then ctail.drop 1 else ctail).length + 1)
          (if decide (ctail.head? = some 94) = true then ctail.drop 1 else ctail)
          q.1 0 false false 0
        rcases hL : classLoop
          ((if decide (ctail.head? = some 94) = true then ctail.drop 1 else ctail).length + 1)
          (if decide (ctail.head? = some 94) = true then ctail.drop 1 else ctail)
          q.1 false 0 with _ | ⟨c1, m1, e1⟩ <;>
        rcases hR : classLoop
          ((if decide (ctail.head? = some 94) = true then ctail.drop 1 else ctail).length + 1)
          (if decide (ctail.head? = some 94) = true then ctail.drop 1 else ctail)
          0 false 0 with _ | ⟨c2, m2, e2⟩ <;>
        rw [hL, hR] at hsyn <;> simp at hsyn
        · rfl
        · obtain ⟨rfl, rfl⟩ := hsyn
          simp only [Option.some_bind]
          cases e1 with
          | some e => simp
          | none =>
            simp only [ne_eq, not_true_eq_false, if_false]
            rw [ih c1 q.2 _, ih c1 [] _]
      · simp only [h91, if_false]
        by_cases h63 : c = 63
        · simp only [h63, if_true]
          split_ifs with hf
          · cases s with
            | nil => simp at hf
            | cons s0 st =>
              obtain ⟨p, hp, hle, -⟩ := DecodeRuneInString_returns (s0 :: st)
              simp only [Option.bind_eq_bind, byteAt_zero_cons, Option.some_bind, hp,
                sliceFrom_of_le _ _ hle]
              exact ih _ _ _
          · exact ih _ _ _
        · simp only [h63, if_false]
          by_cases h92 : c = 92
          · simp only [h92, if_true]
            cases ctail with
            | nil => simp
            | cons c1 ctail1 =>
              simp only []
              split_ifs with hf
              · cases s with
                | nil => simp at hf
                | cons s0 st =>
                  have hs : sliceFrom (s0 :: st) 1 = some st := by simp [sliceFrom]
                  simp only [Option.bind_eq_bind, byteAt_zero_cons, Option.some_bind, hs]
                  exact ih _ _ _
              · exact ih _ _ _
          · simp only [h92, if_false]
            split_ifs with hf
            · cases s with
              | nil => simp at hf
              | cons s0 st =>
                have hs : sliceFrom (s0 :: st) 1 = some st := by simp [sliceFrom]
                simp only [Option.bind_eq_bind, byteAt_zero_cons, Option.some_bind, hs]
                exact ih _ _ _
            · exact ih _ _ _

/-- A successful `matchChunk` carries no error. -/
theorem matchChunkLoop_ok (fuel : Nat) :
    ∀ (chunk s : GoString) (failed : Bool) (t : GoString) (err : Option GoError),
      matchChunkLoop fuel chunk s failed = some (t, true, err) → err = none := by
  induction fuel with
  | zero => intro chunk s failed t err h; simp [matchChunkLoop] at h
  | succ fuel ih =>
    intro chunk s failed t err h
    cases chunk with
    | nil =>
      rw [matchChunkLoop.eq_def] at h
      cases failed <;> simp at h
      exact h.2.symm
    | cons c ctail =>
      rw [matchChunkLoop.eq_def] at h
      simp only [] at h
      by_cases h91 : c = 91
      · simp only [h91, if_true, Option.bind_eq_bind] at h
        obtain ⟨q, -, h⟩ := Option.bind_eq_some.mp h
        obtain ⟨⟨c1, m1, e1⟩, -, h⟩ := Option.bind_eq_some.mp h
        cases e1 with
        | some e => simp at h
        | none =>
          simp only [ne_eq, not_true_eq_false, if_false] at h
          exact ih _ _ _ _ _ h
      · simp only [h91, if_false] at h
        by_cases h63 : c = 63
        · simp only [h63, if_true] at h
          split_ifs at h with hf
          · cases s with
            | nil => simp at hf
            | cons s0 st =>
              obtain ⟨p, hp, hle, -⟩ := DecodeRuneInString_returns (s0 :: st)
              simp only [Option.bind_eq_bind, byteAt_zero_cons, Option.some_bind, hp,
                sliceFrom_of_le _ _ hle] at h
              exact ih _ _ _ _ _ h
          · exact ih _ _ _ _ _ h
        · simp only [h63, if_false] at h
          by_cases h92 : c = 92
          · simp only [h92, if_true] at h
            cases ctail with
            | nil => simp at h
            | cons c1 ctail1 =>
              simp only [] at h
              split_ifs at h with hf
              · cases s with
                | nil => simp at hf
                | cons s0 st =>
                  have hs : sliceFrom (s0 :: st) 1 = some st := by simp [sliceFrom]
                  simp only [Option.bind_eq_bind, byteAt_zero_cons, Option.some_bind, hs] at h
                  exact ih _ _ _ _ _ h
              · exact ih _ _ _ _ _ h
          · simp only [h92, if_false] at h
            split_ifs at h with hf
            · cases s with
              | nil => simp at hf
              | cons s0 st =>
                have hs : sliceFrom (s0 :: st) 1 = some st := by simp [sliceFrom]
                simp only [Option.bind_eq_bind, byteAt_zero_cons, Option.some_bind, hs] at h
                exact ih _ _ _ _ _ h
            · exact ih _ _ _ _ _ h

/-- The error of `matchChunk` is the same against every string. -/
theorem matchChunk_err_indep (chunk s s' : GoString) :
    (matchChunk chunk s).map (fun x => x.2.2) = (matchChunk chunk s').map (fun x => x.2.2) := by
  unfold matchChunk
  rw [matchChunkLoop_err_indep _ chunk s false, matchChunkLoop_err_indep _ chunk s' false]

theorem matchChunk_err_eq {chunk s s' t t' : GoString} {ok ok' : Bool}
    {err err' : Option GoError} (h : matchChunk chunk s = some (t, ok, err))
    (h' : matchChunk chunk s' = some (t', ok', err')) : err = err' := by
  have := matchChunk_err_indep chunk s s'
  rw [h, h'] at this
  simpa using this

theorem matchChunk_ok {chunk s t : GoString} {err : Option GoError}
    (h : matchChunk chunk s = some (t, true, err)) : err = none :=
  matchChunkLoop_ok _ _ _ _ _ _ h

/-- The final check of a pattern never reports a match. -/
theorem validateRest_fst (fuel : Nat) :
    ∀ (p : GoString) (m : Bool) (e : Option GoError),
      validateRest fuel p = some (m, e) → m = false := by
  induction fuel with
  | zero => intro p m e h; simp [validateRest] at h
  | succ fuel ih =>
    intro p m e h
    rw [validateRest] at h
    split_ifs at h with hlen
    · simp only [Option.bind_eq_bind] at h
      obtain ⟨⟨t, ok, err⟩, -, h⟩ := Option.bind_eq_some.mp h
      simp only at h
      split_ifs at h with herr
      · simp at h; exact h.1
      · exact ih _ _ _ h
    · simp at h; exact h.1

/-- One step of the final check of a pattern, the error of the first chunk
being read off any run of `matchChunk` on it. -/
theorem validateRest_step (fuel : Nat) (p s t : GoString) (ok : Bool) (err : Option GoError)
    (hlen : p.length > 0) (hm : matchChunk (scanChunk p).2.1 s = some (t, ok, err)) :
    validateRest (fuel + 1) p =
      if err ≠ none then some (false, err) else validateRest fuel (scanChunk p).2.2 := by
  obtain ⟨⟨t0, ok0, err0⟩, h0⟩ := matchChunk_returns (scanChunk p).2.1 []
  have he : err0 = err := matchChunk_err_eq h0 hm
  subst he
  rw [validateRest, if_pos hlen]
  simp only [Option.bind_eq_bind, h0, Option.some_bind]

/-- With enough fuel the final check of a pattern does not depend on the
fuel. -/
theorem validateRest_fuel (fuel : Nat) :
    ∀ (fuel' : Nat) (p : GoString), p.length < fuel → p.length < fuel' →
      validateRest fuel p = validateRest fuel' p := by
  induction fuel with
  | zero => intro fuel' p h; omega
  | succ fuel ih =>
    intro fuel' p h h'
    cases fuel' with
    | zero => omega
    | succ fuel' =>
      by_cases hlen : p.length > 0
      · obtain ⟨⟨t0, ok0, err0⟩, h0⟩ := matchChunk_returns (scanChunk p).2.1 []
        have hshort := scanChunk_rest_length p (List.length_pos.mp hlen)
        rw [validateRest_step fuel p [] t0 ok0 err0 hlen h0,
          validateRest_step fuel' p [] t0 ok0 err0 hlen h0]
        split_ifs
        · rfl
        · exact ih fuel' _ (Nat.lt_of_lt_of_le hshort (Nat.le_of_lt_succ h))
            (Nat.lt_of_lt_of_le hshort (Nat.le_of_lt_succ h'))
      · rw [validateRest, validateRest, if_neg hlen, if_neg hlen]

/-- When the loop over the positions of a star stops on a malformed chunk,
`matchChunk` has reported the error. -/
theorem starLoop_bad (chunk : GoString) (pe : Bool) (e : GoError) :
    ∀ name : GoString, starLoop chunk pe name = some (StarOutcome.bad e) →
      ∃ s t ok, matchChunk chunk s = some (t, ok, some e) := by
  intro name
  induction name with
  | nil => intro h; simp [starLoop] at h
  | cons c rest ih =>
    intro h
    rw [starLoop] at h
    split_ifs at h with hsep
    · simp at h
    · simp only [Option.bind_eq_bind] at h
      obtain ⟨⟨t, ok, err⟩, hm, h⟩ := Option.bind_eq_some.mp h
      simp only at h
      cases ok with
      | true =>
        simp only [if_true] at h
        split_ifs at h
        · exact ih h
        · simp at h
      | false =>
        cases err with
        | some e1 =>
          cases e
          cases e1
          exact ⟨rest, t, false, hm⟩
        | none =>
          simp at h
          exact ih h

/-- An empty chunk is the last one. -/
theorem scanChunk_chunk_nil (p : GoString) (h : (scanChunk p).2.1 = []) :
    (scanChunk p).2.2 = [] := by
  obtain ⟨-, h2⟩ := dropStars_spec p false
  simp only [scanChunk] at h ⊢
  rcases h2 with h2 | ⟨c, t, h2, hc⟩
  · simp [h2]
  · have := scanIndex_pos c t false hc
    rw [h2] at h
    obtain ⟨k, hk⟩ : ∃ k, scanIndex (c :: t) false = k + 1 :=
      ⟨scanIndex (c :: t) false - 1, by omega⟩
    rw [hk] at h
    simp at h

/-- When `Match` reports an error, the final check of the pattern reports one
too: the error lies in the pattern, not in the name. -/
theorem MatchLoop_bad (fuel : Nat) :
    ∀ (p v : GoString) (m : Bool) (e : GoError), p.length < fuel →
      MatchLoop fuel p v = some (m, some e) →
        ∃ e', validateRest fuel p = some (false, some e') := by
  induction fuel with
  | zero => intro p v m e h; omega
  | succ fuel ih =>
    intro p v m e hfuel h
    rw [MatchLoop] at h
    by_cases hlen : p.length > 0
    · have hne : p ≠ [] := List.length_pos.mp hlen
      have hshort := scanChunk_rest_length p hne
      have hfuel1 : (scanChunk p).2.2.length < fuel :=
        Nat.lt_of_lt_of_le hshort (Nat.le_of_lt_succ hfuel)
      rw [if_pos hlen] at h
      simp only [] at h
      by_cases htrail : (scanChunk p).1 = true ∧ (scanChunk p).2.1 = []
      · rw [if_pos htrail] at h
        simp at h
      · rw [if_neg htrail] at h
        obtain ⟨⟨t, ok, err⟩, hm⟩ := matchChunk_returns (scanChunk p).2.1 v
        simp only [Option.bind_eq_bind, hm, Option.some_bind] at h
        rw [validateRest_step fuel p v t ok err hlen hm]
        by_cases hok : ok = true ∧ (t.length = 0 ∨ (scanChunk p).2.2.length > 0)
        · rw [if_pos hok] at h
          obtain ⟨rfl, -⟩ := hok
          have herr : err = none := matchChunk_ok hm
          subst herr
          simp only [ne_eq, not_true_eq_false, if_false]
          exact ih _ _ _ _ hfuel1 h
        · rw [if_neg hok] at h
          by_cases herr : err ≠ none
          · rw [if_pos herr] at h
            rw [if_pos herr]
            simp only [Option.some.injEq, Prod.mk.injEq] at h
            exact ⟨e, by rw [h.2]⟩
          · rw [if_neg herr] at h
            rw [if_neg herr]
            have herr0 : err = none := by simpa using herr
            obtain ⟨skipped, hsk, h⟩ := Option.bind_eq_some.mp h
            cases skipped with
            | found t1 => exact ih _ _ _ _ hfuel1 h
            | bad e1 =>
              split_ifs at hsk with hstar
              · obtain ⟨s1, t1, ok1, hm1⟩ := starLoop_bad _ _ _ _ hsk
                have := matchChunk_err_eq hm hm1
                rw [herr0] at this
                cases this
              · simp at hsk
            | exhausted =>
              simp only at h
              have hm0 := validateRest_fst _ _ _ _ h
              subst hm0
              rw [validateRest_fuel fuel _ _ hfuel1 (Nat.lt_succ_self _)]
              exact ⟨e, h⟩
    · rw [if_neg hlen] at h
      simp at h

/-- When `Match` reports a match, the final check of the pattern finds no
error: only well-formed patterns match. -/
theorem MatchLoop_true (fuel : Nat) :
    ∀ (p v : GoString) (e : Option GoError), p.length < fuel →
      MatchLoop fuel p v = some (true, e) → validateRest fuel p = some (false, none) := by
  induction fuel with
  | zero => intro p v e h; omega
  | succ fuel ih =>
    intro p v e hfuel h
    rw [MatchLoop] at h
    by_cases hlen : p.length > 0
    · have hne : p ≠ [] := List.length_pos.mp hlen
      have hshort := scanChunk_rest_length p hne
      have hfuel1 : (scanChunk p).2.2.length < fuel :=
        Nat.lt_of_lt_of_le hshort (Nat.le_of_lt_succ hfuel)
      rw [if_pos hlen] at h
      simp only [] at h
      by_cases htrail : (scanChunk p).1 = true ∧ (scanChunk p).2.1 = []
      · have hrest := scanChunk_chunk_nil p htrail.2
        have hm : matchChunk (scanChunk p).2.1 [] = some ([], true, none) := by
          rw [htrail.2]; rfl
        rw [validateRest_step fuel p [] [] true none hlen hm, hrest]
        obtain ⟨k, hk⟩ : ∃ k, fuel = k + 1 := ⟨fuel - 1, by omega⟩
        rw [hk]
        simp [validateRest]
      · rw [if_neg htrail] at h
        obtain ⟨⟨t, ok, err⟩, hm⟩ := matchChunk_returns (scanChunk p).2.1 v
        simp only [Option.bind_eq_bind, hm, Option.some_bind] at h
        rw [validateRest_step fuel p v t ok err hlen hm]
        by_cases hok : ok = true ∧ (t.length = 0 ∨ (scanChunk p).2.2.length > 0)
        · rw [if_pos hok] at h
          obtain ⟨rfl, -⟩ := hok
          have herr : err = none := matchChunk_ok hm
          subst herr
          simp only [ne_eq, not_true_eq_false, if_false]
          exact ih _ _ _ hfuel1 h
        · rw [if_neg hok] at h
          by_cases herr : err ≠ none
          · rw [if_pos herr] at h
            simp at h
          · rw [if_neg herr] at h
            rw [if_neg herr]
            obtain ⟨skipped, hsk, h⟩ := Option.bind_eq_some.mp h
            cases skipped with
            | found t1 => exact ih _ _ _ hfuel1 h
            | bad e1 => simp at h
            | exhausted =>
              simp only at h
              have hm0 := validateRest_fst _ _ _ _ h
              cases hm0
    · rw [validateRest, if_neg hlen]

/-- C8: a pattern that `filepath.Match` reports as malformed (`ErrBadPattern`,
on whatever name) matches no value: `matchPattern` returns false on it, and it
returns, for every value; the error does not reach the caller. -/
theorem matchPattern_malformed (p v : GoString)
    (h : ∃ name m, Match p name = some (m, some GoError.ErrBadPattern)) :
    matchPattern p v = some false := by
  obtain ⟨name, m, hbad⟩ := h
  obtain ⟨e', hv⟩ := MatchLoop_bad _ p name m _ (Nat.lt_succ_self _) hbad
  obtain ⟨⟨b, e⟩, hm⟩ := Match_returns p v
  cases b with
  | false => simp [matchPattern, hm]
  | true =>
    have := MatchLoop_true _ p v e (Nat.lt_succ_self _) hm
    rw [hv] at this
    simp at this

theorem matchPattern_malformed_witness :
    (∃ name m, Match (str "a[") name = some (m, some GoError.ErrBadPattern)) ∧
      matchPattern (str "a[") (str "a[") = some false :=
  ⟨⟨str "b", false, by decide⟩,
   matchPattern_malformed (str "a[") (str "a[") ⟨str "b", false, by decide⟩⟩

theorem Evaluate_gate_order_witness :
    sampleDeployment.Replicas = some 3 ∧
    ∃ inScope res,
      matchesNamespaceScope sampleDeployment.Namespace samplePolicy.Spec.Scope.Namespaces
        = some inScope ∧
      Evaluate sampleLibrary sampleClock samplePolicy sampleDeployment sampleCost
        = some (res, none) ∧
      (∀ reason,
        firstFailure (gateTable sampleLibrary sampleClock samplePolicy sampleDeployment
          sampleCost inScope) = some reason →
          res.Matched = false ∧ res.Reason = reason) ∧
      (res.Matched = true ↔
        ∀ g ∈ gateTable sampleLibrary sampleClock samplePolicy sampleDeployment sampleCost
          inScope, g.1 = false) :=
  ⟨rfl, Evaluate_gate_order sampleLibrary sampleClock samplePolicy sampleDeployment sampleCost 3
    rfl⟩

/-- What `Evaluate` returns, read off the table of the gates: the unmatched
result with the reason of the first failing gate, or, when no gate fails, the
matched result if the replica count is set and a panic if it is nil. -/
theorem Evaluate_eq (lib : Library) (clock : Clock) (policy : EnforcementPolicy)
    (deployment : Deployment) (costData : CostData) (inScope : Bool)
    (hs : matchesNamespaceScope deployment.Namespace policy.Spec.Scope.Namespaces
      = some inScope) :
    Evaluate lib clock policy deployment costData =
      match firstFailure (gateTable lib clock policy deployment costData inScope) with
      | some reason => some (unmatchedResult policy deployment costData reason, none)
      | none =>
        match deployment.Replicas with
        | some replicas => some (matchedResult lib policy deployment costData replicas, none)
        | none => none := by
  simp only [Evaluate, hs, gateTable, Option.bind_eq_bind, Option.some_bind, matchedResult]
  generalize str "already paused" = s1
  generalize str "excluded by annotation" = s2
  generalize str "namespace not in scope" = s3
  generalize str "labels do not match" = s4
  generalize str "cost below threshold" = s5
  generalize str "not idle long enough" = s6
  generalize str "outside scheduled hours" = s7
  generalize str "cooldown not expired" = s8
  generalize buildMatchReason lib policy costData = s9
  generalize isPaused deployment = b1
  generalize isExcluded deployment = b2
  generalize Float64.lt costData.HourlyCost policy.Spec.Conditions.MinHourlyCost = b5
  generalize isIdleLongEnough lib clock.idle deployment policy.Spec.Conditions.IdleWindow = b6
  generalize isCooldownExpired lib clock.cooldown deployment
    policy.Spec.Enforcement.CooldownWindow = b8
  generalize hb8 : decide (policy.Spec.Enforcement.CooldownWindow > 0) = b8a
  have h8 : policy.Spec.Enforcement.CooldownWindow > 0 ↔ b8a = true := by
    rw [← hb8]; simp
  simp only [h8]
  rcases policy.Spec.Scope.Labels with _ | labels
  · rcases policy.Spec.Schedule with _ | schedule
    · cases b1 with
      | true => rfl
      | false =>
      cases b2 with
      | true => rfl
      | false =>
      cases inScope with
      | false => rfl
      | true =>
      cases b5 with
      | true => rfl
      | false =>
      cases b6 with
      | false => rfl
      | true =>
      cases b8a <;> cases b8 <;> cases deployment.Replicas <;> rfl
    · dsimp only
      generalize isWithinSchedule lib clock.schedule schedule = b7
      cases b1 with
      | true => rfl
      | false =>
      cases b2 with
      | true => rfl
      | false =>
      cases inScope with
      | false => rfl
      | true =>
      cases b5 with
      | true => rfl
      | false =>
      cases b6 with
      | false => rfl
      | true =>
      cases b7 with
      | false => rfl
      | true =>
      cases b8a <;> cases b8 <;> cases deployment.Replicas <;> rfl
  · dsimp only
    generalize matchesLabelFilter deployment.Labels labels = b4
    rcases policy.Spec.Schedule with _ | schedule
    · cases b1 with
      | true => rfl
      | false =>
      cases b2 with
      | true => rfl
      | false =>
      cases inScope with
      | false => rfl
      | true =>
      cases b4 with
      | false => rfl
      | true =>
      cases b5 with
      | true => rfl
      | false =>
      cases b6 with
      | false => rfl
      | true =>
      cases b8a <;> cases b8 <;> cases deployment.Replicas <;> rfl
    · dsimp only
      generalize isWithinSchedule lib clock.schedule schedule = b7
      cases b1 with
      | true => rfl
      | false =>
      cases b2 with
      | true => rfl
      | false =>
      cases inScope with
      | false => rfl
      | true =>
      cases b4 with
      | false => rfl
      | true =>
      cases b5 with
      | true => rfl
      | false =>
      cases b6 with
      | false => rfl
      | true =>
      cases b7 with
      | false => rfl
      | true =>
      cases b8a <;> cases b8 <;> cases deployment.Replicas <;> rfl

theorem firstFailure_eq_none_iff (gates : List (Bool × GoString)) :
    firstFailure gates = none ↔ ∀ g ∈ gates, g.1 = false := by
  simp [firstFailure, List.find?_eq_none]

/-- A matched result of `Evaluate` is the one of its last block: no gate of the
table fails and the replica count is set. -/
theorem Evaluate_matched_inv (lib : Library) (clock : Clock) (policy : EnforcementPolicy)
    (deployment : Deployment) (costData : CostData) (res : EvaluationResult)
    (err : Option GoError)
    (h : Evaluate lib clock policy deployment costData = some (res, err))
    (hm : res.Matched = true) :
    ∃ inScope replicas,
      matchesNamespaceScope deployment.Namespace policy.Spec.Scope.Namespaces = some inScope ∧
      firstFailure (gateTable lib clock policy deployment costData inScope) = none ∧
      deployment.Replicas = some replicas ∧
      res = matchedResult lib policy deployment costData replicas ∧ err = none := by
  obtain ⟨inScope, hs⟩ :=
    matchesNamespaceScope_returns deployment.Namespace policy.Spec.Scope.Namespaces
  rw [Evaluate_eq lib clock policy deployment costData inScope hs] at h
  refine ⟨inScope, ?_⟩
  cases hff : firstFailure (gateTable lib clock policy deployment costData inScope) with
  | some reason =>
    rw [hff] at h
    simp only [Option.some.injEq, Prod.mk.injEq] at h
    rw [← h.1] at hm
    simp [unmatchedResult] at hm
  | none =>
    rw [hff] at h
    cases hrep : deployment.Replicas with
    | none => rw [hrep] at h; simp at h
    | some replicas =>
      rw [hrep] at h
      simp only [Option.some.injEq, Prod.mk.injEq] at h
      exact ⟨replicas, hs, rfl, rfl, h.1.symm, h.2.symm⟩

/-- When no gate of the table fails and the replica count is set, `Evaluate`
returns the matched result. -/
theorem Evaluate_of_gates_pass (lib : Library) (clock : Clock) (policy : EnforcementPolicy)
    (deployment : Deployment) (costData : CostData) (inScope : Bool) (replicas : Int)
    (hs : matchesNamespaceScope deployment.Namespace policy.Spec.Scope.Namespaces
      = some inScope)
    (hff : firstFailure (gateTable lib clock policy deployment costData inScope) = none)
    (hrep : deployment.Replicas = some replicas) :
    Evaluate lib clock policy deployment costData =
      some (matchedResult lib policy deployment costData replicas, none) := by
  rw [Evaluate_eq lib clock policy deployment costData inScope hs, hff, hrep]

theorem scenario_evaluates :
    Evaluate scenarioLibrary scenarioClock scenarioPolicy scenarioDeployment scenarioCost =
      some (matchedResult scenarioLibrary scenarioPolicy scenarioDeployment scenarioCost 3,
        none) := by
  refine Evaluate_of_gates_pass _ _ _ _ _ true 3 (by decide) ?_ rfl
  decide

/-- C11: the action of a matched result copies the action type and the name of
the policy, the deployment, its current replica count, the dry-run flag of the
policy and the reason of the result. -/
theorem Evaluate_matched_action (lib : Library) (clock : Clock) (policy : EnforcementPolicy)
    (deployment : Deployment) (costData : CostData) (res : EvaluationResult)
    (err : Option GoError)
    (h : Evaluate lib clock policy deployment costData = some (res, err))
    (hm : res.Matched = true) :
    ∃ action replicas,
      res.Action = some action ∧ deployment.Replicas = some replicas ∧
      action.Type_ = policy.Spec.Actions.Type_ ∧
      action.Deployment = deployment ∧
      action.OriginalReplicas = replicas ∧
      action.Policy = policy.Name ∧
      action.DryRun = policy.Spec.Enforcement.DryRun ∧
      action.Reason = res.Reason := by
  obtain ⟨inScope, replicas, -, -, hrep, hres, -⟩ :=
    Evaluate_matched_inv lib clock policy deployment costData res err h hm
  subst hres
  exact ⟨_, replicas, rfl, hrep, rfl, rfl, rfl, rfl, rfl, rfl⟩

theorem Evaluate_matched_action_witness :
    Evaluate scenarioLibrary scenarioClock scenarioPolicy scenarioDeployment scenarioCost =
      some (matchedResult scenarioLibrary scenarioPolicy scenarioDeployment scenarioCost 3,
        none) ∧
    (matchedResult scenarioLibrary scenarioPolicy scenarioDeployment scenarioCost 3).Matched
      = true ∧
    ∃ action replicas,
      (matchedResult scenarioLibrary scenarioPolicy scenarioDeployment scenarioCost 3).Action
        = some action ∧
      scenarioDeployment.Replicas = some replicas ∧
      action.Type_ = scenarioPolicy.Spec.Actions.Type_ ∧
      action.Deployment = scenarioDeployment ∧
      action.OriginalReplicas = replicas ∧
      action.Policy = scenarioPolicy.Name ∧
      action.DryRun = scenarioPolicy.Spec.Enforcement.DryRun ∧
      action.Reason =
        (matchedResult scenarioLibrary scenarioPolicy scenarioDeployment scenarioCost 3).Reason :=
  ⟨scenario_evaluates, rfl,
   Evaluate_matched_action scenarioLibrary scenarioClock scenarioPolicy scenarioDeployment
     scenarioCost _ none scenario_evaluates rfl⟩

/-- A cost at least as high passes the threshold when the lower cost does. -/
theorem Float64.lt_of_le_of_not_lt (a b m : Float64) (hle : Float64.le a b = true)
    (hlt : Float64.lt a m = false) : Float64.lt b m = false := by
  cases a <;> cases b <;> cases m <;>
    simp_all [Float64.lt, Float64.le, Float64.ge]
  exact le_trans hlt hle

/-- On numbers, `<` is the negation of `>=`. -/
theorem Float64.lt_iff_not_ge (a b : Float64) (ha : a.isNaN = false) (hb : b.isNaN = false) :
    Float64.lt a b = true ↔ Float64.ge a b = false := by
  cases a <;> cases b <;> simp_all [Float64.lt, Float64.ge, Float64.isNaN]

/-- C12: the cost projection multiplies the hourly cost by 730 and rounds
nothing (1 gives 730, 2.5 gives 1825, 0 gives 0, 2 gives 1460); the estimated
monthly savings of a matched result are the projection of the hourly cost of
the cost sample. -/
theorem EstimateMonthlyCost_projection :
    (∀ q : ℚ, EstimateMonthlyCost (Float64.fin q) = Float64.fin (q * 730)) ∧
    EstimateMonthlyCost (Float64.fin 1) = Float64.fin 730 ∧
    EstimateMonthlyCost (Float64.fin (5 / 2)) = Float64.fin 1825 ∧
    EstimateMonthlyCost (Float64.fin 0) = Float64.fin 0 ∧
    EstimateMonthlyCost (Float64.fin 2) = Float64.fin 1460 ∧
    (∀ (lib : Library) (clock : Clock) (policy : EnforcementPolicy) (deployment : Deployment)
        (costData : CostData) (res : EvaluationResult) (err : Option GoError),
      Evaluate lib clock policy deployment costData = some (res, err) →
      res.Matched = true →
      ∃ action, res.Action = some action ∧
        action.EstimatedMonthlySavings = EstimateMonthlyCost costData.HourlyCost) := by
  refine ⟨fun q => rfl, ?_, ?_, ?_, ?_, ?_⟩
  · simp [EstimateMonthlyCost]
  · simp only [EstimateMonthlyCost]; norm_num
  · simp [EstimateMonthlyCost]
  · simp only [EstimateMonthlyCost]; norm_num
  · intro lib clock policy deployment costData res err h hm
    obtain ⟨inScope, replicas, -, -, -, hres, -⟩ :=
      Evaluate_matched_inv lib clock policy deployment costData res err h hm
    subst hres
    exact ⟨_, rfl, rfl⟩

theorem EstimateMonthlyCost_projection_witness :
    ∃ action,
      (matchedResult scenarioLibrary scenarioPolicy scenarioDeployment scenarioCost 3).Action
        = some action ∧
      action.EstimatedMonthlySavings = EstimateMonthlyCost scenarioCost.HourlyCost :=
  EstimateMonthlyCost_projection.2.2.2.2.2 scenarioLibrary scenarioClock scenarioPolicy
    scenarioDeployment scenarioCost _ none scenario_evaluates rfl

/-- C14: raising the hourly cost, all other inputs and the clock unchanged,
keeps a match a match. -/
theorem Evaluate_cost_monotone (lib : Library) (clock : Clock) (policy : EnforcementPolicy)
    (deployment : Deployment) (c1 c2 : CostData) (res1 : EvaluationResult)
    (err1 : Option GoError)
    (hle : Float64.le c1.HourlyCost c2.HourlyCost = true)
    (h : Evaluate lib clock policy deployment c1 = some (res1, err1))
    (hm : res1.Matched = true) :
    ∃ res2 err2, Evaluate lib clock policy deployment c2 = some (res2, err2) ∧
      res2.Matched = true := by
  obtain ⟨inScope, replicas, hs, hff, hrep, -, -⟩ :=
    Evaluate_matched_inv lib clock policy deployment c1 res1 err1 h hm
  have hff2 : firstFailure (gateTable lib clock policy deployment c2 inScope) = none := by
    rw [firstFailure_eq_none_iff] at hff ⊢
    simp only [gateTable, List.mem_cons, List.mem_singleton, List.not_mem_nil, or_false,
      forall_eq_or_imp, forall_eq] at hff ⊢
    obtain ⟨g1, g2, g3, g4, g5, g6, g7, g8⟩ := hff
    exact ⟨g1, g2, g3, g4, Float64.lt_of_le_of_not_lt _ _ _ hle g5, g6, g7, g8⟩
  exact ⟨_, none, Evaluate_of_gates_pass lib clock policy deployment c2 inScope replicas hs
    hff2 hrep, rfl⟩

theorem Evaluate_cost_monotone_witness :
    Float64.le scenarioCost.HourlyCost sampleCostHigh.HourlyCost = true ∧
    ∃ res2 err2,
      Evaluate scenarioLibrary scenarioClock scenarioPolicy scenarioDeployment sampleCostHigh
        = some (res2, err2) ∧ res2.Matched = true :=
  ⟨by decide,
   Evaluate_cost_monotone scenarioLibrary scenarioClock scenarioPolicy scenarioDeployment
     scenarioCost sampleCostHigh _ none (by decide) scenario_evaluates rfl⟩

/-- C20: on a deployment that passes every gate and whose `Spec.Replicas` is nil,
`Evaluate` does not return: dereferencing the nil pointer panics. -/
theorem Evaluate_nil_replicas_panics :
    sampleDeploymentNoReplicas.Replicas = none ∧
    firstFailure (gateTable sampleLibrary sampleClock samplePolicy sampleDeploymentNoReplicas
      sampleCostHigh true) = none ∧
    Evaluate sampleLibrary sampleClock samplePolicy sampleDeploymentNoReplicas sampleCostHigh
      = none := by
  have hff : firstFailure (gateTable sampleLibrary sampleClock samplePolicy
      sampleDeploymentNoReplicas sampleCostHigh true) = none := by decide
  refine ⟨rfl, hff, ?_⟩
  rw [Evaluate_eq _ _ _ _ _ true (by decide), hff]
  rfl

theorem cost_reason_distinct :
    str "not idle long enough" ≠ str "cost below threshold" ∧
    str "outside scheduled hours" ≠ str "cost below threshold" ∧
    str "cooldown not expired" ≠ str "cost below threshold" := by decide

/-- C13 as amended: when the first four gates pass, `Evaluate` returns the
unmatched result with reason "cost below threshold" exactly when the hourly
cost is below the threshold in Go's comparison `<`; on numbers this is the
negation of `>=`, and a cost equal to the threshold passes; a cost that is not
a number is below no threshold. -/
theorem Evaluate_cost_gate (lib : Library) (clock : Clock) (policy : EnforcementPolicy)
    (deployment : Deployment) (costData : CostData)
    (h1 : isPaused deployment = false) (h2 : isExcluded deployment = false)
    (h3 : matchesNamespaceScope deployment.Namespace policy.Spec.Scope.Namespaces = some true)
    (h4 : ∀ labels, policy.Spec.Scope.Labels = some labels →
      matchesLabelFilter deployment.Labels labels = true) :
    ((∃ res err, Evaluate lib clock policy deployment costData = some (res, err) ∧
        res.Matched = false ∧ res.Reason = str "cost below threshold") ↔
      Float64.lt costData.HourlyCost policy.Spec.Conditions.MinHourlyCost = true) ∧
    (costData.HourlyCost.isNaN = false → policy.Spec.Conditions.MinHourlyCost.isNaN = false →
      (Float64.lt costData.HourlyCost policy.Spec.Conditions.MinHourlyCost = true ↔
        Float64.ge costData.HourlyCost policy.Spec.Conditions.MinHourlyCost = false)) ∧
    (costData.HourlyCost = policy.Spec.Conditions.MinHourlyCost →
      Float64.lt costData.HourlyCost policy.Spec.Conditions.MinHourlyCost = false) ∧
    (costData.HourlyCost.isNaN = true →
      Float64.lt costData.HourlyCost policy.Spec.Conditions.MinHourlyCost = false) := by
  refine ⟨?_, Float64.lt_iff_not_ge _ _, ?_, ?_⟩
  · obtain ⟨d6, d7, d8⟩ := cost_reason_distinct
    rw [Evaluate_eq lib clock policy deployment costData true h3]
    simp only [gateTable, h1, h2, Bool.not_true]
    have hg4 : ∀ labels, policy.Spec.Scope.Labels = some labels →
        (!matchesLabelFilter deployment.Labels labels) = false := by
      intro labels hL
      simp [h4 labels hL]
    generalize str "already paused" = s1 at *
    generalize str "excluded by annotation" = s2 at *
    generalize str "namespace not in scope" = s3 at *
    generalize str "labels do not match" = s4 at *
    generalize str "cost below threshold" = s5 at *
    generalize str "not idle long enough" = s6 at *
    generalize str "outside scheduled hours" = s7 at *
    generalize str "cooldown not expired" = s8 at *
    generalize Float64.lt costData.HourlyCost policy.Spec.Conditions.MinHourlyCost = b5
    generalize (!isIdleLongEnough lib clock.idle deployment
      policy.Spec.Conditions.IdleWindow) = b6
    generalize (decide (policy.Spec.Enforcement.CooldownWindow > 0) &&
      !isCooldownExpired lib clock.cooldown deployment
        policy.Spec.Enforcement.CooldownWindow) = b8
    have key : ∀ g4 g7 : Bool, g4 = false →
        ((∃ res err,
          (match firstFailure [(false, s1), (false, s2), (false, s3), (g4, s4), (b5, s5),
              (b6, s6), (g7, s7), (b8, s8)] with
            | some reason =>
              some (unmatchedResult policy deployment costData reason, (none : Option GoError))
            | none =>
              match deployment.Replicas with
              | some replicas =>
                some (matchedResult lib policy deployment costData replicas, none)
              | none => none) = some (res, err) ∧
          res.Matched = false ∧ res.Reason = s5) ↔ b5 = true) := by
      intro g4 g7 hg
      subst hg
      cases b5 with
      | true => simp [firstFailure, List.find?, unmatchedResult]
      | false =>
        cases b6 <;> cases g7 <;> cases b8 <;> cases deployment.Replicas <;>
          simp [firstFailure, List.find?, unmatchedResult, matchedResult, d6, d7, d8]
    rcases hL : policy.Spec.Scope.Labels with _ | labels
    · exact key _ _ rfl
    · exact key _ _ (hg4 labels hL)
  · intro heq
    rw [heq]
    cases policy.Spec.Conditions.MinHourlyCost <;> simp [Float64.lt]
  · intro hnan
    cases hc : costData.HourlyCost <;> simp_all [Float64.lt, Float64.isNaN]

theorem Evaluate_cost_gate_witness :
    isPaused sampleDeployment = false ∧ isExcluded sampleDeployment = false ∧
    matchesNamespaceScope sampleDeployment.Namespace samplePolicy.Spec.Scope.Namespaces
      = some true ∧
    ((∃ res err, Evaluate sampleLibrary sampleClock samplePolicy sampleDeployment sampleCost
          = some (res, err) ∧
        res.Matched = false ∧ res.Reason = str "cost below threshold") ↔
      Float64.lt sampleCost.HourlyCost samplePolicy.Spec.Conditions.MinHourlyCost = true) :=
  ⟨by decide, by decide, by decide,
   (Evaluate_cost_gate sampleLibrary sampleClock samplePolicy sampleDeployment sampleCost
     (by decide) (by decide) (by decide) (by intro labels h; cases h)).1⟩

/-- C13, as stated, fails on a cost that is not a number: the first four gates
pass and the cost is not `>=` the threshold, yet the cost gate passes and the
deployment is matched. -/
theorem Evaluate_cost_gate_counterexample :
    isPaused sampleDeployment = false ∧ isExcluded sampleDeployment = false ∧
    matchesNamespaceScope sampleDeployment.Namespace samplePolicy.Spec.Scope.Namespaces
      = some true ∧
    samplePolicy.Spec.Scope.Labels = none ∧
    Float64.ge Float64.nan samplePolicy.Spec.Conditions.MinHourlyCost = false ∧
    Evaluate sampleLibrary sampleClock samplePolicy sampleDeployment ⟨Float64.nan⟩ =
      some (matchedResult sampleLibrary samplePolicy sampleDeployment ⟨Float64.nan⟩ 3, none) := by
  refine ⟨by decide, by decide, by decide, rfl, rfl, ?_⟩
  exact Evaluate_of_gates_pass _ _ _ _ _ true 3 (by decide) (by decide) rfl

theorem goLookup_of_lookup_none (m : GoMap) (key : GoString) (h : m.lookup key = none) :
    goLookup m key = [] := by
  simp [goLookup, h]

theorem goLookup_of_lookup_some (m : GoMap) (key s : GoString) (h : m.lookup key = some s) :
    goLookup m key = s := by
  simp [goLookup, h]

/-- The saturated difference is the exact one when that fits a `Duration`. -/
theorem timeSub_exact (t u : Time) (h1 : minDuration ≤ t - u) (h2 : t - u ≤ maxDuration) :
    timeSub t u = t - u := by
  unfold timeSub
  rw [if_neg (not_lt.mpr h1), if_neg (not_lt.mpr h2)]

/-- Against a window that is a `Duration` other than the smallest one, the
saturated difference compares as the exact one. -/
theorem timeSub_ge_iff (t u : Time) (w : Duration) (h1 : minDuration < w)
    (h2 : w ≤ maxDuration) : timeSub t u ≥ w ↔ t - u ≥ w := by
  unfold timeSub
  split_ifs with ha hb
  · constructor
    · intro h; exact absurd h (not_le.mpr h1)
    · intro h; exact absurd (lt_of_lt_of_le h1 h) (not_lt.mpr (le_of_lt ha))
  · constructor
    · intro _; exact le_trans h2 (le_of_lt hb)
    · intro _; exact h2
  · rfl

/-- C15: `isIdleLongEnough` answers true when the annotation
`finops.io/last-activity` is absent, true when its value does not parse, and
otherwise true exactly when the time since the last activity (`now` minus the
parsed instant, as a `Duration`) is at least the idle window, equality
included. -/
theorem isIdleLongEnough_spec (lib : Library) (now : Time) (deployment : Deployment)
    (idleWindow : Duration) :
    (deployment.Annotations.lookup (str "finops.io/last-activity") = none →
      isIdleLongEnough lib now deployment idleWindow = true) ∧
    (∀ s, deployment.Annotations.lookup (str "finops.io/last-activity") = some s →
      lib.ParseRFC3339 s = none → isIdleLongEnough lib now deployment idleWindow = true) ∧
    (∀ s lastActivity,
      deployment.Annotations.lookup (str "finops.io/last-activity") = some s → s ≠ [] →
      lib.ParseRFC3339 s = some lastActivity →
        (isIdleLongEnough lib now deployment idleWindow = true ↔
          timeSince now lastActivity ≥ idleWindow) ∧
        (minDuration ≤ now - lastActivity → now - lastActivity ≤ maxDuration →
          timeSince now lastActivity = now - lastActivity) ∧
        (minDuration < idleWindow → idleWindow ≤ maxDuration →
          (isIdleLongEnough lib now deployment idleWindow = true ↔
            now - lastActivity ≥ idleWindow)) ∧
        (now - lastActivity = idleWindow → minDuration ≤ idleWindow →
          idleWindow ≤ maxDuration → isIdleLongEnough lib now deployment idleWindow = true)) := by
  refine ⟨?_, ?_, ?_⟩
  · intro h
    simp [isIdleLongEnough, goLookup_of_lookup_none _ _ h]
  · intro s h hp
    simp only [isIdleLongEnough, goLookup_of_lookup_some _ _ _ h, hp]
    split_ifs <;> rfl
  · intro s t h hne hp
    have hiff : isIdleLongEnough lib now deployment idleWindow = true ↔
        timeSince now t ≥ idleWindow := by
      simp [isIdleLongEnough, goLookup_of_lookup_some _ _ _ h, hp, hne]
    refine ⟨hiff, timeSub_exact now t, ?_, ?_⟩
    · intro h1 h2
      rw [hiff]
      exact timeSub_ge_iff now t idleWindow h1 h2
    · intro heq h1 h2
      rw [hiff]
      unfold timeSince
      rw [timeSub_exact now t (by rw [heq]; exact h1) (by rw [heq]; exact h2), heq]

/-- C16: `isCooldownExpired` answers true when the annotation
`finops.io/paused-at` is absent, true when its value does not parse, and
otherwise true exactly when the time since the last action (`now` minus the
parsed instant, as a `Duration`) is at least the cooldown window. -/
theorem isCooldownExpired_spec (lib : Library) (now : Time) (deployment : Deployment)
    (cooldownWindow : Duration) :
    (deployment.Annotations.lookup (str "finops.io/paused-at") = none →
      isCooldownExpired lib now deployment cooldownWindow = true) ∧
    (∀ s, deployment.Annotations.lookup (str "finops.io/paused-at") = some s →
      lib.ParseRFC3339 s = none → isCooldownExpired lib now deployment cooldownWindow = true) ∧
    (∀ s lastAction,
      deployment.Annotations.lookup (str "finops.io/paused-at") = some s → s ≠ [] →
      lib.ParseRFC3339 s = some lastAction →
        (isCooldownExpired lib now deployment cooldownWindow = true ↔
          timeSince now lastAction ≥ cooldownWindow) ∧
        (minDuration ≤ now - lastAction → now - lastAction ≤ maxDuration →
          timeSince now lastAction = now - lastAction) ∧
        (minDuration < cooldownWindow → cooldownWindow ≤ maxDuration →
          (isCooldownExpired lib now deployment cooldownWindow = true ↔
            now - lastAction ≥ cooldownWindow))) := by
  refine ⟨?_, ?_, ?_⟩
  · intro h
    simp [isCooldownExpired, goLookup_of_lookup_none _ _ h]
  · intro s h hp
    simp only [isCooldownExpired, goLookup_of_lookup_some _ _ _ h, hp]
    split_ifs <;> rfl
  · intro s t h hne hp
    have hiff : isCooldownExpired lib now deployment cooldownWindow = true ↔
        timeSince now t ≥ cooldownWindow := by
      simp [isCooldownExpired, goLookup_of_lookup_some _ _ _ h, hp, hne]
    refine ⟨hiff, timeSub_exact now t, ?_⟩
    intro h1 h2
    rw [hiff]
    exact timeSub_ge_iff now t cooldownWindow h1 h2

theorem isIdleLongEnough_spec_witness :
    List.lookup (str "finops.io/last-activity") scenarioDeployment.Annotations
      = some (str "2026-01-01T00:00:00Z") ∧
    scenarioLibrary.ParseRFC3339 (str "2026-01-01T00:00:00Z") = some 1767225600000000000 ∧
    (isIdleLongEnough scenarioLibrary scenarioClock.idle scenarioDeployment 86400000000000 = true ↔
      timeSince scenarioClock.idle 1767225600000000000 ≥ 86400000000000) :=
  ⟨by decide, by decide,
   ((isIdleLongEnough_spec scenarioLibrary scenarioClock.idle scenarioDeployment
      86400000000000).2.2 (str "2026-01-01T00:00:00Z") 1767225600000000000
      (by decide) (by decide) (by decide)).1⟩

theorem isCooldownExpired_spec_witness :
    List.lookup (str "finops.io/paused-at") futurePausedDeployment.Annotations
      = some (str "2100-01-01T00:00:00Z") ∧
    scenarioLibrary.ParseRFC3339 (str "2100-01-01T00:00:00Z") = some 4102444800000000000 ∧
    (isCooldownExpired scenarioLibrary scenarioClock.cooldown futurePausedDeployment
        3600000000000 = true ↔
      timeSince scenarioClock.cooldown 4102444800000000000 ≥ 3600000000000) :=
  ⟨by decide, by decide,
   ((isCooldownExpired_spec scenarioLibrary scenarioClock.cooldown futurePausedDeployment
      3600000000000).2.2 (str "2100-01-01T00:00:00Z") 4102444800000000000
      (by decide) (by decide) (by decide)).1⟩

theorem cooldown_reason_distinct :
    str "already paused" ≠ str "cooldown not expired" ∧
    str "excluded by annotation" ≠ str "cooldown not expired" ∧
    str "namespace not in scope" ≠ str "cooldown not expired" ∧
    str "labels do not match" ≠ str "cooldown not expired" ∧
    str "cost below threshold" ≠ str "cooldown not expired" ∧
    str "not idle long enough" ≠ str "cooldown not expired" ∧
    str "outside scheduled hours" ≠ str "cooldown not expired" := by decide

/-- C17 as amended: a cooldown window of zero disables the cooldown gate of
`Evaluate`, which then never answers "cooldown not expired", whatever the
annotation `finops.io/paused-at` and the clock; `isCooldownExpired` itself,
called with a window of zero, answers true when the annotation is absent, does
not parse, or holds an instant not later than `now`. -/
theorem cooldown_zero_disables_gate (lib : Library) (clock : Clock)
    (policy : EnforcementPolicy) (deployment : Deployment) (costData : CostData)
    (h0 : policy.Spec.Enforcement.CooldownWindow = 0) :
    (∀ res err, Evaluate lib clock policy deployment costData = some (res, err) →
      ¬ (res.Matched = false ∧ res.Reason = str "cooldown not expired")) ∧
    (∀ now : Time,
      (deployment.Annotations.lookup (str "finops.io/paused-at") = none →
        isCooldownExpired lib now deployment 0 = true) ∧
      (∀ s, deployment.Annotations.lookup (str "finops.io/paused-at") = some s →
        lib.ParseRFC3339 s = none → isCooldownExpired lib now deployment 0 = true) ∧
      (∀ s pausedAt, deployment.Annotations.lookup (str "finops.io/paused-at") = some s →
        lib.ParseRFC3339 s = some pausedAt → pausedAt ≤ now →
          isCooldownExpired lib now deployment 0 = true)) := by
  constructor
  · intro res err h
    obtain ⟨inScope, hs⟩ :=
      matchesNamespaceScope_returns deployment.Namespace policy.Spec.Scope.Namespaces
    obtain ⟨d1, d2, d3, d4, d5, d6, d7⟩ := cooldown_reason_distinct
    rw [Evaluate_eq lib clock policy deployment costData inScope hs] at h
    simp only [gateTable, h0, gt_iff_lt, lt_self_iff_false, decide_False, Bool.false_and] at h
    generalize str "already paused" = s1 at *
    generalize str "excluded by annotation" = s2 at *
    generalize str "namespace not in scope" = s3 at *
    generalize str "labels do not match" = s4 at *
    generalize str "cost below threshold" = s5 at *
    generalize str "not idle long enough" = s6 at *
    generalize str "outside scheduled hours" = s7 at *
    generalize str "cooldown not expired" = s8 at *
    have key : ∀ g1 g2 g3 g4 g5 g6 g7 : Bool,
        (match firstFailure [(g1, s1), (g2, s2), (g3, s3), (g4, s4), (g5, s5), (g6, s6),
            (g7, s7), (false, s8)] with
          | some reason =>
            some (unmatchedResult policy deployment costData reason, (none : Option GoError))
          | none =>
            match deployment.Replicas with
            | some replicas =>
              some (matchedResult lib policy deployment costData replicas, none)
            | none => none) = some (res, err) →
        ¬ (res.Matched = false ∧ res.Reason = s8) := by
      intro g1 g2 g3 g4 g5 g6 g7 hk
      cases g1 <;> cases g2 <;> cases g3 <;> cases g4 <;> cases g5 <;> cases g6 <;>
        cases g7 <;> cases hrep : deployment.Replicas <;>
        simp [firstFailure, List.find?, hrep] at hk <;>
        obtain ⟨rfl, -⟩ := hk <;>
        simp [unmatchedResult, matchedResult, d1, d2, d3, d4, d5, d6, d7]
    exact key _ _ _ _ _ _ _ h
  · intro now
    refine ⟨?_, ?_, ?_⟩
    · intro h
      simp [isCooldownExpired, goLookup_of_lookup_none _ _ h]
    · intro s h hp
      simp only [isCooldownExpired, goLookup_of_lookup_some _ _ _ h, hp]
      split_ifs <;> rfl
    · intro s t h hp hle
      simp only [isCooldownExpired, goLookup_of_lookup_some _ _ _ h, hp]
      split_ifs
      · rfl
      · have hnn : (0 : Int) ≤ now - t := sub_nonneg.mpr hle
        have hmin : minDuration < 0 := by decide
        have hmax : (0 : Int) ≤ maxDuration := by decide
        simp only [timeSince, timeSub, decide_eq_true_eq, ge_iff_le]
        split_ifs with ha hb
        · exact absurd (lt_of_lt_of_le ha (le_of_lt hmin)) (not_lt.mpr hnn)
        · exact hmax
        · exact hnn

theorem cooldown_zero_disables_gate_witness :
    scenarioPolicy.Spec.Enforcement.CooldownWindow = 0 ∧
    ∀ res err,
      Evaluate scenarioLibrary scenarioClock scenarioPolicy futurePausedDeployment scenarioCost
        = some (res, err) →
      ¬ (res.Matched = false ∧ res.Reason = str "cooldown not expired") :=
  ⟨rfl, (cooldown_zero_disables_gate scenarioLibrary scenarioClock scenarioPolicy
    futurePausedDeployment scenarioCost rfl).1⟩

/-- C17, as stated, fails: with the annotation `finops.io/paused-at` in the year
2100 and the clock in 2026, `isCooldownExpired` called with a window of zero
answers false. -/
theorem isCooldownExpired_zero_counterexample :
    isCooldownExpired scenarioLibrary scenarioClock.cooldown futurePausedDeployment 0 = false := by
  decide

/-- C18: a schedule whose time zone cannot be loaded is always within its
hours, whatever the instant and the windows. -/
theorem isWithinSchedule_unknown_zone (lib : Library) (now : Time) (schedule : ScheduleSpec)
    (h : lib.LoadLocation schedule.Timezone = none) :
    isWithinSchedule lib now schedule = true := by
  simp [isWithinSchedule, h]

theorem isWithinSchedule_unknown_zone_witness :
    scenarioLibrary.LoadLocation (str "Invalid/Zone") = none ∧
    isWithinSchedule scenarioLibrary scenarioClock.schedule
      { Timezone := str "Invalid/Zone", ActiveHours := [] } = true :=
  ⟨by rfl,
   isWithinSchedule_unknown_zone scenarioLibrary scenarioClock.schedule
     { Timezone := str "Invalid/Zone", ActiveHours := [] } (by rfl)⟩

/-- The hour of the day lies between 0 and 23. -/
theorem hourIn_range (loc : Location) (t : Time) : 0 ≤ hourIn loc t ∧ hourIn loc t ≤ 23 := by
  unfold hourIn
  rw [Int.fmod_eq_emod _ (by decide), Int.fdiv_eq_ediv _ (by decide)]
  constructor <;> omega

/-- The abbreviation of the day of the week is one of the seven. -/
theorem weekday_abbreviation (loc : Location) (t : Time) :
    (weekdayString (weekdayIn loc t)).take 3 ∈
      [str "Sun", str "Mon", str "Tue", str "Wed", str "Thu", str "Fri", str "Sat"] := by
  have hlt : weekdayIn loc t < 7 := by
    unfold weekdayIn
    rw [Int.fmod_eq_emod _ (by decide)]
    omega
  generalize weekdayIn loc t = n at hlt
  interval_cases n <;> decide

/-- Whether one window of a schedule is active on the day `d` at the hour `h`. -/
theorem window_active_iff (w : ActiveHoursSpec) (d : GoString) (h : Int) :
    (w.Days.contains d &&
        (match w.Hours with
         | [start, end_] => decide (h ≥ start) && decide (h ≤ end_)
         | _ => false)) = true ↔
      d ∈ w.Days ∧ ∃ start end_, w.Hours = [start, end_] ∧ start ≤ h ∧ h ≤ end_ := by
  rcases hH : w.Hours with _ | ⟨a, _ | ⟨b, _ | ⟨c, rest⟩⟩⟩
  · simp
  · simp
  · have hc : w.Days.contains d = true ↔ d ∈ w.Days := by simp
    simp only [Bool.and_eq_true, hc, decide_eq_true_eq, ge_iff_le, List.cons.injEq, and_true]
    constructor
    · rintro ⟨hd, h1, h2⟩
      exact ⟨hd, a, b, ⟨rfl, rfl⟩, h1, h2⟩
    · rintro ⟨hd, s, e, ⟨rfl, rfl⟩, h1, h2⟩
      exact ⟨hd, h1, h2⟩
  · simp

/-- C19: with a time zone that can be loaded, the schedule is within its hours
exactly when some window lists the current day (three-letter abbreviation, in
that zone) and has exactly two hour bounds that enclose the current hour (0 to
23), both ends included; windows with another number of bounds never count, and
without windows the answer is false. -/
theorem isWithinSchedule_windows (lib : Library) (now : Time) (schedule : ScheduleSpec)
    (loc : Location) (h : lib.LoadLocation schedule.Timezone = some loc) :
    (isWithinSchedule lib now schedule = true ↔
      ∃ w ∈ schedule.ActiveHours,
        (weekdayString (weekdayIn loc now)).take 3 ∈ w.Days ∧
        ∃ start end_, w.Hours = [start, end_] ∧ start ≤ hourIn loc now ∧
          hourIn loc now ≤ end_) ∧
    (schedule.ActiveHours = [] → isWithinSchedule lib now schedule = false) ∧
    (0 ≤ hourIn loc now ∧ hourIn loc now ≤ 23) ∧
    (weekdayString (weekdayIn loc now)).take 3 ∈
      [str "Sun", str "Mon", str "Tue", str "Wed", str "Thu", str "Fri", str "Sat"] := by
  refine ⟨?_, ?_, hourIn_range loc now, weekday_abbreviation loc now⟩
  · simp only [isWithinSchedule, h, List.any_eq_true]
    constructor
    · rintro ⟨w, hw, hact⟩
      exact ⟨w, hw, (window_active_iff w _ _).mp hact⟩
    · rintro ⟨w, hw, hact⟩
      exact ⟨w, hw, (window_active_iff w _ _).mpr hact⟩
  · intro hempty
    simp [isWithinSchedule, h, hempty]

theorem isWithinSchedule_windows_witness :
    scenarioLibrary.LoadLocation scenarioSchedule.Timezone = some (fun _ => 0) ∧
    isWithinSchedule scenarioLibrary scenarioClock.schedule scenarioSchedule = true ∧
    (weekdayString (weekdayIn (fun _ => 0) scenarioClock.schedule)).take 3 = str "Sat" ∧
    hourIn (fun _ => 0) scenarioClock.schedule = 0 :=
  ⟨by rfl,
   ((isWithinSchedule_windows scenarioLibrary scenarioClock.schedule scenarioSchedule
      (fun _ => 0) (by rfl)).1).mpr
     ⟨{ Days := [str "Sat", str "Sun"], Hours := [0, 6] }, by simp [scenarioSchedule],
      by decide, 0, 6, rfl, by decide, by decide⟩,
   by decide, by decide⟩

/-- When a gate of the table fails, `Evaluate` returns the unmatched result
with the reason of the first failing gate. -/
theorem Evaluate_of_gate_fails (lib : Library) (clock : Clock) (policy : EnforcementPolicy)
    (deployment : Deployment) (costData : CostData) (inScope : Bool) (reason : GoString)
    (hs : matchesNamespaceScope deployment.Namespace policy.Spec.Scope.Namespaces
      = some inScope)
    (hff : firstFailure (gateTable lib clock policy deployment costData inScope) = some reason) :
    Evaluate lib clock policy deployment costData =
      some (unmatchedResult policy deployment costData reason, none) := by
  rw [Evaluate_eq lib clock policy deployment costData inScope hs, hff]

/-- The reason of the first failing gate is one of the reasons of the table. -/
theorem firstFailure_mem (gates : List (Bool × GoString)) (reason : GoString)
    (h : firstFailure gates = some reason) : reason ∈ gates.map (fun g => g.2) := by
  unfold firstFailure at h
  cases hfind : gates.find? (fun g => g.1) with
  | none => rw [hfind] at h; simp at h
  | some g =>
    rw [hfind] at h
    simp only [Option.map_some', Option.some.injEq] at h
    exact List.mem_map.mpr ⟨g, List.mem_of_find?_eq_some hfind, h⟩

/-- The reasons of the table of the gates are the eight reasons of `Evaluate`. -/
theorem gateTable_reasons (lib : Library) (clock : Clock) (policy : EnforcementPolicy)
    (deployment : Deployment) (costData : CostData) (inScope : Bool) :
    (gateTable lib clock policy deployment costData inScope).map (fun g => g.2) = gateReasons :=
  rfl

/-- No window of a schedule is active when each window with two hour bounds
starts later than it ends. -/
theorem isWithinSchedule_false_of_inverted (lib : Library) (now : Time)
    (schedule : ScheduleSpec) (loc : Location)
    (hloc : lib.LoadLocation schedule.Timezone = some loc)
    (hw : ∀ w ∈ schedule.ActiveHours, ∀ start end_, w.Hours = [start, end_] → end_ < start) :
    isWithinSchedule lib now schedule = false := by
  rw [Bool.eq_false_iff]
  intro h
  simp only [isWithinSchedule, hloc, List.any_eq_true] at h
  obtain ⟨w, hmem, hact⟩ := h
  obtain ⟨-, start, end_, hH, h1, h2⟩ := (window_active_iff w _ _).mp hact
  have hlt := hw w hmem start end_ hH
  exact absurd (le_trans h1 h2) (not_le.mpr hlt)

/-- C21: no overnight wrap. With a time zone that can be loaded, a schedule
whose windows all have a start hour later than their end hour (such as 22 to 6)
is outside its hours at every instant, whatever days the windows list. -/
theorem isWithinSchedule_no_overnight_wrap (lib : Library) (now : Time)
    (schedule : ScheduleSpec) (loc : Location)
    (hloc : lib.LoadLocation schedule.Timezone = some loc)
    (hw : ∀ w ∈ schedule.ActiveHours, ∃ start end_, w.Hours = [start, end_] ∧ start > end_) :
    isWithinSchedule lib now schedule = false := by
  refine isWithinSchedule_false_of_inverted lib now schedule loc hloc ?_
  intro w hmem start end_ hH
  obtain ⟨s, e, hse, hgt⟩ := hw w hmem
  rw [hH] at hse
  simp only [List.cons.injEq, and_true] at hse
  obtain ⟨rfl, rfl⟩ := hse
  exact hgt

theorem isWithinSchedule_no_overnight_wrap_witness :
    scenarioLibrary.LoadLocation overnightSchedule.Timezone = some (fun _ => 0) ∧
    (weekdayString (weekdayIn (fun _ => 0) scenarioClock.schedule)).take 3 = str "Sat" ∧
    hourIn (fun _ => 0) scenarioClock.schedule = 0 ∧
    isWithinSchedule scenarioLibrary scenarioClock.schedule overnightSchedule = false :=
  ⟨by rfl, by decide, by decide,
   isWithinSchedule_no_overnight_wrap scenarioLibrary scenarioClock.schedule overnightSchedule
     (fun _ => 0) (by rfl)
     (by
       intro w hmem
       simp only [overnightSchedule, List.mem_cons, List.mem_singleton, List.not_mem_nil,
         or_false] at hmem
       rcases hmem with rfl | rfl
       · exact ⟨22, 6, rfl, by decide⟩
       · exact ⟨23, 0, rfl, by decide⟩)⟩

/-- C23: the result `Evaluate` returns carries the policy, the deployment and
the cost sample it was given; it has an action exactly when it is matched; and
the reason of an unmatched result is one of the eight reasons of the gates. -/
theorem Evaluate_result_invariant (lib : Library) (clock : Clock) (policy : EnforcementPolicy)
    (deployment : Deployment) (costData : CostData) (res : EvaluationResult)
    (err : Option GoError)
    (h : Evaluate lib clock policy deployment costData = some (res, err)) :
    res.Policy = policy ∧ res.Deployment = deployment ∧ res.CostData = costData ∧
    (res.Action ≠ none ↔ res.Matched = true) ∧
    (res.Matched = false → res.Reason ∈ gateReasons) := by
  obtain ⟨inScope, hs⟩ :=
    matchesNamespaceScope_returns deployment.Namespace policy.Spec.Scope.Namespaces
  rw [Evaluate_eq lib clock policy deployment costData inScope hs] at h
  cases hff : firstFailure (gateTable lib clock policy deployment costData inScope) with
  | some reason =>
    rw [hff] at h
    simp only [Option.some.injEq, Prod.mk.injEq] at h
    obtain ⟨rfl, -⟩ := h
    refine ⟨rfl, rfl, rfl, ?_, ?_⟩
    · simp [unmatchedResult]
    · intro _
      have hmem := firstFailure_mem _ _ hff
      rw [gateTable_reasons] at hmem
      exact hmem
  | none =>
    rw [hff] at h
    cases hrep : deployment.Replicas with
    | none => rw [hrep] at h; simp at h
    | some replicas =>
      rw [hrep] at h
      simp only [Option.some.injEq, Prod.mk.injEq] at h
      obtain ⟨rfl, -⟩ := h
      refine ⟨rfl, rfl, rfl, ?_, ?_⟩
      · simp [matchedResult]
      · intro hm
        simp [matchedResult] at hm

theorem sample_evaluates :
    Evaluate sampleLibrary sampleClock samplePolicy sampleDeployment sampleCost =
      some (unmatchedResult samplePolicy sampleDeployment sampleCost
        (str "cost below threshold"), none) := by
  refine Evaluate_of_gate_fails _ _ _ _ _ true _ (by decide) ?_
  decide

theorem Evaluate_result_invariant_witness :
    Evaluate sampleLibrary sampleClock samplePolicy sampleDeployment sampleCost =
      some (unmatchedResult samplePolicy sampleDeployment sampleCost
        (str "cost below threshold"), none) ∧
    (unmatchedResult samplePolicy sampleDeployment sampleCost
        (str "cost below threshold")).Policy = samplePolicy ∧
    (unmatchedResult samplePolicy sampleDeployment sampleCost
        (str "cost below threshold")).Deployment = sampleDeployment ∧
    (unmatchedResult samplePolicy sampleDeployment sampleCost
        (str "cost below threshold")).CostData = sampleCost ∧
    ((unmatchedResult samplePolicy sampleDeployment sampleCost
        (str "cost below threshold")).Action ≠ none ↔
      (unmatchedResult samplePolicy sampleDeployment sampleCost
        (str "cost below threshold")).Matched = true) ∧
    ((unmatchedResult samplePolicy sampleDeployment sampleCost
        (str "cost below threshold")).Matched = false →
      (unmatchedResult samplePolicy sampleDeployment sampleCost
        (str "cost below threshold")).Reason ∈ gateReasons) :=
  ⟨sample_evaluates,
   Evaluate_result_invariant sampleLibrary sampleClock samplePolicy sampleDeployment sampleCost
     _ none sample_evaluates⟩

/-- The table of the gates depends on the clock only through what the idle
gate, the schedule gate (when a schedule is set) and the cooldown gate (when
the cooldown window is positive) answer at their own readings. -/
theorem gateTable_congr_clock (lib : Library) (clock clock2 : Clock)
    (policy : EnforcementPolicy) (deployment : Deployment) (costData : CostData)
    (inScope : Bool)
    (hidle : isIdleLongEnough lib clock.idle deployment policy.Spec.Conditions.IdleWindow =
      isIdleLongEnough lib clock2.idle deployment policy.Spec.Conditions.IdleWindow)
    (hsched : ∀ schedule, policy.Spec.Schedule = some schedule →
      isWithinSchedule lib clock.schedule schedule =
        isWithinSchedule lib clock2.schedule schedule)
    (hcool : policy.Spec.Enforcement.CooldownWindow > 0 →
      isCooldownExpired lib clock.cooldown deployment policy.Spec.Enforcement.CooldownWindow =
        isCooldownExpired lib clock2.cooldown deployment
          policy.Spec.Enforcement.CooldownWindow) :
    gateTable lib clock policy deployment costData inScope =
      gateTable lib clock2 policy deployment costData inScope := by
  unfold gateTable
  rw [hidle]
  simp only [List.cons.injEq, Prod.mk.injEq, and_true, true_and]
  constructor
  · cases hS : policy.Spec.Schedule with
    | none => rfl
    | some schedule => simp only [hsched schedule hS]
  · by_cases hc : policy.Spec.Enforcement.CooldownWindow > 0
    · rw [hcool hc]
    · simp only [hc, decide_False, Bool.false_and]

/-- C22 as amended: each of the idle gate, the schedule gate and the cooldown
gate reads the clock itself, so the result of `Evaluate` is a function of the
policy, the deployment, the cost sample and the three instants read; it is the
result for one instant `now` whenever each gate answers at `now` as it does at
its own reading (the schedule gate when a schedule is set, the cooldown gate
when the cooldown window is positive), in particular when the three readings
are the same instant. -/
theorem Evaluate_clock_readings (lib : Library) (clock : Clock) (now : Time)
    (policy : EnforcementPolicy) (deployment : Deployment) (costData : CostData)
    (hidle : isIdleLongEnough lib clock.idle deployment policy.Spec.Conditions.IdleWindow =
      isIdleLongEnough lib now deployment policy.Spec.Conditions.IdleWindow)
    (hsched : ∀ schedule, policy.Spec.Schedule = some schedule →
      isWithinSchedule lib clock.schedule schedule = isWithinSchedule lib now schedule)
    (hcool : policy.Spec.Enforcement.CooldownWindow > 0 →
      isCooldownExpired lib clock.cooldown deployment policy.Spec.Enforcement.CooldownWindow =
        isCooldownExpired lib now deployment policy.Spec.Enforcement.CooldownWindow) :
    Evaluate lib clock policy deployment costData =
      Evaluate lib (singleInstant now) policy deployment costData := by
  obtain ⟨inScope, hs⟩ :=
    matchesNamespaceScope_returns deployment.Namespace policy.Spec.Scope.Namespaces
  rw [Evaluate_eq lib clock policy deployment costData inScope hs,
    Evaluate_eq lib (singleInstant now) policy deployment costData inScope hs,
    gateTable_congr_clock lib clock (singleInstant now) policy deployment costData inScope
      hidle hsched hcool]

theorem Evaluate_clock_readings_witness :
    steadyClock.idle < steadyClock.schedule ∧ steadyClock.schedule < steadyClock.cooldown ∧
    Evaluate scenarioLibrary steadyClock boundaryPolicy boundaryDeployment scenarioCost =
      Evaluate scenarioLibrary (singleInstant steadyClock.idle) boundaryPolicy
        boundaryDeployment scenarioCost :=
  ⟨by decide, by decide,
   Evaluate_clock_readings scenarioLibrary steadyClock steadyClock.idle boundaryPolicy
     boundaryDeployment scenarioCost (by decide)
     (by
       intro schedule hS
       simp only [boundaryPolicy, Option.some.injEq] at hS
       subst hS
       decide)
     (fun _ => by decide)⟩

/-- C22, as stated, fails: with three successive readings of the clock, one
nanosecond apart, the schedule gate reads the last instant of its window and
the cooldown gate the first instant after the cooldown, and `Evaluate` returns
a matched result; with any one of the three instants used by all gates the
result is unmatched. -/
theorem Evaluate_single_instant_counterexample :
    boundaryClock.schedule = boundaryClock.idle + 1 ∧
    boundaryClock.cooldown = boundaryClock.schedule + 1 ∧
    Evaluate scenarioLibrary boundaryClock boundaryPolicy boundaryDeployment scenarioCost =
      some (matchedResult scenarioLibrary boundaryPolicy boundaryDeployment scenarioCost 3,
        none) ∧
    Evaluate scenarioLibrary (singleInstant boundaryClock.idle) boundaryPolicy
        boundaryDeployment scenarioCost =
      some (unmatchedResult boundaryPolicy boundaryDeployment scenarioCost
        (str "cooldown not expired"), none) ∧
    Evaluate scenarioLibrary (singleInstant boundaryClock.schedule) boundaryPolicy
        boundaryDeployment scenarioCost =
      some (unmatchedResult boundaryPolicy boundaryDeployment scenarioCost
        (str "cooldown not expired"), none) ∧
    Evaluate scenarioLibrary (singleInstant boundaryClock.cooldown) boundaryPolicy
        boundaryDeployment scenarioCost =
      some (unmatchedResult boundaryPolicy boundaryDeployment scenarioCost
        (str "outside scheduled hours"), none) := by
  refine ⟨by decide, by decide, ?_, ?_, ?_, ?_⟩
  · exact Evaluate_of_gates_pass _ _ _ _ _ true 3 (by decide) (by decide) rfl
  · exact Evaluate_of_gate_fails _ _ _ _ _ true _ (by decide) (by decide)
  · exact Evaluate_of_gate_fails _ _ _ _ _ true _ (by decide) (by decide)
  · exact Evaluate_of_gate_fails _ _ _ _ _ true _ (by decide) (by decide)

end FinOps
